import Mathlib

/-!
Verification development for the Cerebellum-Network/ddc-smart-contract
repository.

Part I embeds the example client `examples/cere02/contract.js` (the only
executable code shipped under the source tree of the repository that the claims
reference directly): the contract messages each client helper submits, the
identifier-resolution behaviour of the module scope, and the top-level
execution order of the module.

Part II models the DDC payment/metering ledger core described in
`SPECIFICATION.md`.  The Rust/ink! contract sources themselves are not part
of this repository snapshot (only the specification, CI glue and demo
clients are), so the ledger is modelled from the words of the specification;
each such definition says so in its doc comment.
-/

namespace Cere02Client

/-- A contract message as the example client submits it: the message name
plus its two numeric arguments (tier id and new value).  Embeds the call
shape used by `contract.tx.<name>({value, gasLimit}, a1, a2)` in
`examples/cere02/contract.js`. -/
structure ContractCall where
  method : String
  arg1 : Nat
  arg2 : Nat
deriving DecidableEq, Repr

/-- Embeds `change_tier_fee(tid, new_fee)` from `examples/cere02/contract.js`
lines 152-162: submits the `change_tier_fee` message with arguments
`(tid, new_fee)`. -/
def change_tier_fee (tid new_fee : Nat) : ContractCall :=
  { method := "change_tier_fee", arg1 := tid, arg2 := new_fee }

/-- Embeds `change_tier_limit(tid, new_limit)` from
`examples/cere02/contract.js` lines 166-176.  The body of that function
invokes `contract.tx.change_tier_fee({ value, gasLimit }, tid, new_limit)`
(line 168), i.e. it submits the fee-changing message, not a limit-changing
one, passing `new_limit` in the fee-argument position. -/
def change_tier_limit (tid new_limit : Nat) : ContractCall :=
  { method := "change_tier_fee", arg1 := tid, arg2 := new_limit }

/-- The identifiers declared or imported in the module scope of
`examples/cere02/contract.js`: the two imports (lines 1-2), the module-level
bindings (lines 4, 15, 17, 24, 27, 30, 64, 65) and the hoisted function
declarations. -/
def topLevelDecls : List String :=
  ["ApiPromise", "ContractPromise", "api", "InitApi", "contract_abi",
   "contract_address", "contract", "value", "gasLimit", "target", "from",
   "pause_or_not", "tier_deposit", "balance_of", "balance_of_contract",
   "token_symbol", "metrics_of", "tier_id_of", "tier_limit_of",
   "transfer_ownership", "change_tier_fee", "change_tier_limit",
   "create_payment", "report_metrics", "opt_out", "revoke_membership",
   "transfer_all_balance", "flip_contract_status"]

/-- The free identifiers a client helper evaluates, in JavaScript
left-to-right evaluation order, before its contract query or transaction is
dispatched.  For a `contract.query.*` helper the callee (`contract`) is
evaluated, then the arguments (`alicePair`, then the `{value, gasLimit}`
options object); for a `contract.tx.*` helper the callee and options are
evaluated first and `alicePair` is evaluated as the `signAndSend` argument,
still before the transaction is sent.  Read off `examples/cere02/contract.js`
lines 38-47, 51-58, 138-148, 152-162, 166-176, 180-190, 195-205, 209-219,
223-233, 237-247 and 251-261. -/
def preSendRefs : String → List String
  | "pause_or_not" => ["contract", "alicePair", "value", "gasLimit"]
  | "tier_deposit" => ["contract", "alicePair", "value", "gasLimit"]
  | "transfer_ownership" => ["contract", "value", "gasLimit", "alicePair"]
  | "change_tier_fee" => ["contract", "value", "gasLimit", "alicePair"]
  | "change_tier_limit" => ["contract", "value", "gasLimit", "alicePair"]
  | "create_payment" => ["contract", "value", "gasLimit", "alicePair"]
  | "report_metrics" => ["contract", "value", "gasLimit", "alicePair"]
  | "opt_out" => ["contract", "value", "gasLimit", "alicePair"]
  | "revoke_membership" => ["contract", "value", "gasLimit", "alicePair"]
  | "transfer_all_balance" => ["contract", "value", "gasLimit", "alicePair"]
  | "flip_contract_status" => ["contract", "value", "gasLimit", "alicePair"]
  | _ => []

/-- The helpers of `examples/cere02/contract.js` whose bodies mention
`alicePair`. -/
def alicePairClients : List String :=
  ["pause_or_not", "tier_deposit", "transfer_ownership", "change_tier_fee",
   "change_tier_limit", "create_payment", "report_metrics", "opt_out",
   "revoke_membership", "transfer_all_balance", "flip_contract_status"]

/-- Outcome of evaluating a helper up to its send: either a
`ReferenceError` on the first identifier that is not in scope, or the send
is reached. -/
inductive EvalOutcome where
  | refError (name : String)
  | sent
deriving DecidableEq, Repr

/-- Resolve the pre-send identifier references of a helper against a scope,
JavaScript style: the first identifier missing from the scope raises a
`ReferenceError` and evaluation stops before the send. -/
def evalRefs (scope : List String) : List String → EvalOutcome
  | [] => .sent
  | n :: rest => if scope.contains n then evalRefs scope rest else .refError n

/-- State of the module-level execution of `examples/cere02/contract.js`:
the value of the `api` binding (`none` models JavaScript `undefined`), the
pending continuation of `InitApi` (suspended at its `await`), and the `api`
value captured by the `ContractPromise` constructor call (line 24), once the
constructor has run. -/
structure JsModuleState where
  api : Option Nat
  initApiPending : Bool
  contractApiArg : Option (Option Nat)
deriving DecidableEq, Repr

/-- The handle that `ApiPromise.create()` eventually resolves to. -/
def apiHandle : Nat := 1

/-- Module state after `let api;` (line 4): `api` is `undefined`, nothing
pending, no contract constructed. -/
def declareApi : JsModuleState :=
  { api := none, initApiPending := false, contractApiArg := none }

/-- Embeds the call `InitApi()` at line 10: the async function runs
synchronously up to `await ApiPromise.create()` and suspends; the assignment
`api = ...` becomes a pending continuation that can only run after the
synchronous module code finishes. -/
def callInitApi (s : JsModuleState) : JsModuleState :=
  { s with initApiPending := true }

/-- Embeds line 24, `const contract = new ContractPromise(api, ...)`: the
constructor receives the current value of the `api` binding. -/
def constructContract (s : JsModuleState) : JsModuleState :=
  { s with contractApiArg := some s.api }

/-- Runs the microtask queue after the synchronous module code: the pending
`InitApi` continuation, if any, now assigns the resolved handle to `api`. -/
def drainMicrotasks (s : JsModuleState) : JsModuleState :=
  if s.initApiPending then
    { s with api := some apiHandle, initApiPending := false }
  else s

/-- The module-level execution of `examples/cere02/contract.js` in source
order: declare `api`, call `InitApi()`, construct the contract, then let the
event loop run the pending continuations. -/
def moduleRun : JsModuleState :=
  drainMicrotasks (constructContract (callInitApi declareApi))

end Cere02Client

namespace DdcLedger

/-- Modelled from the spec: price and retention windows are given for a
period of 31 days (SPECIFICATION.md "Flow of payments" and "Flow of
metrics"; design spec sections 3 and 4).  Time is measured in days. -/
def periodDays : Nat := 31

/-- Modelled from the spec: balances use checked arithmetic and surface
`Overflow` rather than wrapping (design spec section 7); the bound models a
128-bit balance type. -/
def maxBalance : Nat := 2 ^ 128 - 1

/-- Modelled from the spec: a Tier is a priced bundle of reserved capacity
with a price per 31-day period and a transfer/usage limit (design spec
section 3). -/
structure Tier where
  fee : Nat
  limit : Nat
deriving DecidableEq, Repr

/-- Modelled from the spec: a Subscription is keyed by App account and
carries the current tier id, the prepaid balance, creation and
last-consumption times and the suspended flag (design spec section 3).
`totalCharged` and `totalDeposited` are ghost accumulators recording the
amounts ever consumed by ticks and ever deposited, used to state the
charging-bound and conservation properties. -/
structure Subscription where
  tierId : Nat
  balance : Nat
  createdAt : Nat
  lastConsumption : Nat
  suspended : Bool
  totalCharged : Nat
  totalDeposited : Nat
deriving DecidableEq, Repr

/-- Modelled from the spec: the observation of a single Inspector for a
(app, node, day) key with two resource counters (design spec section 3,
MetricReport). -/
structure RawReport where
  inspector : Nat
  app : Nat
  node : Nat
  day : Nat
  storedBytes : Nat
  transferredBytes : Nat
deriving DecidableEq, Repr

/-- Modelled from the spec: the canonical merged value for a
(app, node, day) triple (design spec section 3, MergedMetric). -/
structure MergedMetric where
  app : Nat
  node : Nat
  day : Nat
  storedBytes : Nat
  transferredBytes : Nat
deriving DecidableEq, Repr

/-- Modelled from the spec: one timestamped online/offline transition of a
Node (design spec section 3, AvailabilityRecord). -/
structure AvailEvent where
  time : Nat
  online : Bool
deriving DecidableEq, Repr

/-- Modelled from the spec: the error kinds of the core (design spec
section 7). -/
inductive Err where
  | unknownTier
  | unknownNode
  | noSubscription
  | unauthorizedReporter
  | unauthorizedOperator
  | insufficientBalance
  | insufficientPool
  | retentionExpired
  | overflow
deriving DecidableEq, Repr

/-- Modelled from the spec: the single global ledger state — the Tier,
Subscription and Node maps, the recognized Inspector set, raw and merged
metric records, the revenue pool with its per-Node attribution, and the
per-Node availability histories (design spec sections 2, 3 and 6).  Keyed
maps are association lists; accounts and tier ids are naturals. -/
structure State where
  operator : Nat
  tiers : List (Nat × Tier)
  subs : List (Nat × Subscription)
  nodes : List Nat
  inspectors : List Nat
  reports : List RawReport
  merged : List MergedMetric
  revenuePool : Nat
  nodeRevenue : List (Nat × Nat)
  avail : List (Nat × List AvailEvent)
deriving DecidableEq, Repr

/-- Look up a tier by id. -/
def lookupTier (s : State) (id : Nat) : Option Tier :=
  (s.tiers.find? (fun p => p.1 == id)).map (·.2)

/-- Look up the subscription of an App. -/
def lookupSub (s : State) (a : Nat) : Option Subscription :=
  (s.subs.find? (fun p => p.1 == a)).map (·.2)

/-- The subscription balance of an App, zero when it has no subscription. -/
def balanceOf (s : State) (a : Nat) : Nat :=
  (lookupSub s a).elim 0 (·.balance)

/-- Upsert the subscription of an App. -/
def setSub (s : State) (a : Nat) (sub : Subscription) : State :=
  { s with subs := (a, sub) :: s.subs.filter (fun p => p.1 != a) }

/-- Remove the subscription of an App. -/
def removeSub (s : State) (a : Nat) : State :=
  { s with subs := s.subs.filter (fun p => p.1 != a) }

/-- Modelled from the spec: `deposit(app, amount)` increases the prepaid
balance of the App, creating the Subscription if absent with the
lowest-numbered tier as default; overflow is rejected with the balance
unchanged (design spec section 4.1).  Creation records the injected current
time as both creation and last-consumption time. -/
def deposit (now app amount : Nat) (s : State) : Except Err Unit × State :=
  match lookupSub s app with
  | some sub =>
      if sub.balance + amount ≤ maxBalance then
        (.ok (), setSub s app { sub with
          balance := sub.balance + amount,
          totalDeposited := sub.totalDeposited + amount })
      else (.error .overflow, s)
  | none =>
      match (s.tiers.map (·.1)).min? with
      | some tid =>
          if amount ≤ maxBalance then
            (.ok (), setSub s app
              { tierId := tid, balance := amount, createdAt := now,
                lastConsumption := now, suspended := false,
                totalCharged := 0, totalDeposited := amount })
          else (.error .overflow, s)
      | none => (.error .unknownTier, s)

/-- Modelled from the spec: `change_tier(app, new_tier)` validates that the
new tier exists and is active (a zero limit marks a deactivated tier, which
is rejected) and updates the stored tier pointer; the new rate is only ever
applied by later ticks (design spec sections 4.1, 4.2 and 8). -/
def change_tier (app newTier : Nat) (s : State) : Except Err Unit × State :=
  match lookupSub s app with
  | none => (.error .noSubscription, s)
  | some sub =>
      match lookupTier s newTier with
      | none => (.error .unknownTier, s)
      | some t =>
          if t.limit = 0 then (.error .unknownTier, s)
          else (.ok (), setSub s app { sub with tierId := newTier })

/-- Modelled from the spec: the amount already consumed from the balance
for the period currently in progress.  Charging is in arrears (a tick
deducts whole elapsed periods and advances last-consumption), so nothing of
the current period has been deducted from the balance yet and this amount
is zero; it is kept as a named quantity because `cancel` is specified as
refunding the balance minus it (design spec section 4.1). -/
def consumedCurrentPeriod (_sub : Subscription) : Nat := 0

/-- Modelled from the spec: `cancel(app)` computes the unused balance
(total balance minus the amount already consumed for the current period),
schedules it for refund via the external balances capability (the returned
value), and removes the Subscription; it fails with `NoSubscription` if the
App has none (design spec section 4.1). -/
def cancel (app : Nat) (s : State) : Except Err Nat × State :=
  match lookupSub s app with
  | none => (.error .noSubscription, s)
  | some sub =>
      (.ok (sub.balance - consumedCurrentPeriod sub), removeSub s app)

/-- Result of consuming up to `e` whole periods from a balance. -/
structure ConsumeResult where
  newBalance : Nat
  consumed : Nat
  suspendedNow : Bool
  periodsAdvanced : Nat
deriving DecidableEq, Repr

/-- Modelled from the spec: consume up to `e` whole periods at `price` each
from `balance`.  Each period that the balance fully covers deducts the full
price; the first period the balance cannot cover deducts as much as is
available, marks the subscription suspended and stops — it never goes
negative and never pro-rates within a period (design spec section 4.1).
`periodsAdvanced` counts the periods for which any charge was taken, so
last-consumption can be advanced past them. -/
def consumePeriods (price : Nat) : Nat → Nat → ConsumeResult
  | balance, 0 => ⟨balance, 0, false, 0⟩
  | balance, e + 1 =>
      if price ≤ balance then
        let r := consumePeriods price (balance - price) e
        ⟨r.newBalance, price + r.consumed, r.suspendedNow, r.periodsAdvanced + 1⟩
      else
        ⟨0, balance, true, 1⟩

/-- Modelled from the spec: `tick(app)` computes the elapsed whole 31-day
periods since last-consumption, deducts the tier price per elapsed period
from the balance crediting the revenue pool with the same amount, and
advances last-consumption; an insufficient balance deducts what is
available, suspends the subscription and stops.  A suspended subscription
is not consumed further (design spec section 4.1). -/
def tick (now app : Nat) (s : State) : Except Err Unit × State :=
  match lookupSub s app with
  | none => (.error .noSubscription, s)
  | some sub =>
      if sub.suspended then (.ok (), s)
      else
        match lookupTier s sub.tierId with
        | none => (.error .unknownTier, s)
        | some t =>
            let e := (now - sub.lastConsumption) / periodDays
            let r := consumePeriods t.fee sub.balance e
            let s' := setSub s app { sub with
              balance := r.newBalance,
              lastConsumption :=
                sub.lastConsumption + periodDays * r.periodsAdvanced,
              suspended := r.suspendedNow,
              totalCharged := sub.totalCharged + r.consumed }
            (.ok (), { s' with revenuePool := s.revenuePool + r.consumed })

/-- Reply of the read-only `status` operation. -/
structure SubStatus where
  balance : Nat
  tierId : Nat
  suspended : Bool
deriving DecidableEq, Repr

/-- Modelled from the spec: `status(app)` returns balance, tier and
suspended flag, or `NoSubscription` (design spec section 4.1). -/
def status (app : Nat) (s : State) : Except Err SubStatus × State :=
  match lookupSub s app with
  | none => (.error .noSubscription, s)
  | some sub => (.ok ⟨sub.balance, sub.tierId, sub.suspended⟩, s)

/-- Modelled from the spec: `set_tier(id, price, limit)` is operator-only
and upserts a tier; tiers are never deleted (design spec section 4.2). -/
def set_tier (caller id fee limit : Nat) (s : State) : Except Err Unit × State :=
  if caller = s.operator then
    (.ok (), { s with
      tiers := (id, ⟨fee, limit⟩) :: s.tiers.filter (fun p => p.1 != id) })
  else (.error .unauthorizedOperator, s)

/-- Modelled from the spec: `get_tier(id)` is read-only and fails with
`UnknownTier` if absent (design spec section 4.2). -/
def get_tier (id : Nat) (s : State) : Except Err Tier × State :=
  match lookupTier s id with
  | none => (.error .unknownTier, s)
  | some t => (.ok t, s)

/-- Modelled from the spec: `list_tiers()` is a read-only sequence of the
configured tiers (design spec section 4.2). -/
def list_tiers (s : State) : Except Err (List (Nat × Tier)) × State :=
  (.ok s.tiers, s)

/-- Modelled from the spec: `add_node(node)` is operator-only and adds the
node to the registry (design spec section 4.3). -/
def add_node (caller node : Nat) (s : State) : Except Err Unit × State :=
  if caller = s.operator then
    if s.nodes.contains node then (.ok (), s)
    else (.ok (), { s with nodes := node :: s.nodes })
  else (.error .unauthorizedOperator, s)

/-- Modelled from the spec: `remove_node(node)` is operator-only and removes
the node from the active registry without deleting its historical metrics
or availability records (design spec section 4.3). -/
def remove_node (caller node : Nat) (s : State) : Except Err Unit × State :=
  if caller = s.operator then
    (.ok (), { s with nodes := s.nodes.filter (fun n => n != node) })
  else (.error .unauthorizedOperator, s)

/-- Report key equality on (app, node, day). -/
def sameKey (r : RawReport) (app node day : Nat) : Bool :=
  r.app == app && r.node == node && r.day == day

/-- All raw reports stored for a (app, node, day) key. -/
def keyReports (rs : List RawReport) (app node day : Nat) : List RawReport :=
  rs.filter (fun r => sameKey r app node day)

/-- Modelled from the spec: the median of a list of counter values — the
middle element of the sorted values for an odd count, the arithmetic mean
of the two central values for an even count (design spec section 4.4). -/
def medianNat (vs : List Nat) : Nat :=
  let l := List.insertionSort (· ≤ ·) vs
  let n := l.length
  if n = 0 then 0
  else if n % 2 = 1 then l.getD (n / 2) 0
  else (l.getD (n / 2 - 1) 0 + l.getD (n / 2) 0) / 2

/-- Modelled from the spec: the merged record for a key is the element-wise
median over all raw reports stored for that key (one latest report per
distinct Inspector) (design spec section 4.4). -/
def mergeOf (rs : List RawReport) (app node day : Nat) : MergedMetric :=
  let ks := keyReports rs app node day
  { app := app, node := node, day := day,
    storedBytes := medianNat (ks.map (·.storedBytes)),
    transferredBytes := medianNat (ks.map (·.transferredBytes)) }

/-- Look up the canonical merged record for a key. -/
def lookupMerged (s : State) (app node day : Nat) : Option MergedMetric :=
  s.merged.find? (fun m => m.app == app && m.node == node && m.day == day)

/-- Modelled from the spec: a day is within the retention window when it is
not in the future and lies within the most recent 31 days relative to the
injected current time (design spec section 4.4). -/
def withinRetention (now day : Nat) : Bool :=
  day ≤ now && now - day < periodDays

/-- Modelled from the spec: `report(inspector, app, node, day, counters)`
requires the node to be active (`UnknownNode`) and the inspector to be a
recognized reporter (`UnauthorizedReporter`); a report for a future day or
for a day outside the 31-day retention window is rejected with
`RetentionExpired` and the raw report is discarded.  Otherwise the
previous report of that Inspector for the key, if any, is overwritten, and the
merged record for (app, node, day) is recomputed as the median over all
latest reports of the distinct Inspectors (design spec section 4.4). -/
def report (now inspector app node day storedB transferredB : Nat)
    (s : State) : Except Err Unit × State :=
  if s.nodes.contains node = false then (.error .unknownNode, s)
  else if s.inspectors.contains inspector = false then
    (.error .unauthorizedReporter, s)
  else if withinRetention now day = false then (.error .retentionExpired, s)
  else
    let rs := s.reports.filter
        (fun r => !(r.inspector == inspector && sameKey r app node day))
      ++ [⟨inspector, app, node, day, storedB, transferredB⟩]
    let m := mergeOf rs app node day
    (.ok (), { s with
      reports := rs,
      merged := m :: s.merged.filter
        (fun x => !(x.app == app && x.node == node && x.day == day)) })

/-- Modelled from the spec: `rollup_by_app(app, window)` sums the merged
counters across all Nodes for the App over the day window (design spec
section 4.4).  Read-only. -/
def rollup_by_app (app d1 d2 : Nat) (s : State) :
    Except Err (Nat × Nat) × State :=
  let ms := s.merged.filter
    (fun m => m.app == app && decide (d1 ≤ m.day) && decide (m.day ≤ d2))
  (.ok (ms.foldr
    (fun m acc => (m.storedBytes + acc.1, m.transferredBytes + acc.2))
    (0, 0)), s)

/-- Modelled from the spec: `rollup_by_node(node, window)` is the symmetric
rollup across all Apps for a Node (design spec section 4.4).  Read-only. -/
def rollup_by_node (node d1 d2 : Nat) (s : State) :
    Except Err (Nat × Nat) × State :=
  let ms := s.merged.filter
    (fun m => m.node == node && decide (d1 ≤ m.day) && decide (m.day ≤ d2))
  (.ok (ms.foldr
    (fun m acc => (m.storedBytes + acc.1, m.transferredBytes + acc.2))
    (0, 0)), s)

/-- Modelled from the spec: `evict_expired()` removes merged and raw report
records for days older than the 31-day retention window relative to the
injected current time (design spec section 4.4). -/
def evict_expired (now : Nat) (s : State) : Except Err Unit × State :=
  (.ok (), { s with
    reports := s.reports.filter (fun r => decide (now < r.day + periodDays)),
    merged := s.merged.filter (fun m => decide (now < m.day + periodDays)) })

/-- Modelled from the spec: `credit(node_hint, amount)` adds the amount to
the operator-withdrawable pool and records the advisory per-Node
attribution (design spec section 4.5). -/
def credit (node amount : Nat) (s : State) : Except Err Unit × State :=
  let cur := (((s.nodeRevenue.find? (fun p => p.1 == node)).map (·.2)).getD 0)
  (.ok (), { s with
    revenuePool := s.revenuePool + amount,
    nodeRevenue :=
      (node, cur + amount) :: s.nodeRevenue.filter (fun p => p.1 != node) })

/-- Modelled from the spec: `withdraw(amount)` is operator-only, fails with
`InsufficientPool` when the amount exceeds the withdrawable pool, and
otherwise reduces the pool and pays the operator via the external balances
capability (the returned value) (design spec section 4.5). -/
def withdraw (caller amount : Nat) (s : State) : Except Err Nat × State :=
  if caller = s.operator then
    if amount ≤ s.revenuePool then
      (.ok amount, { s with revenuePool := s.revenuePool - amount })
    else (.error .insufficientPool, s)
  else (.error .unauthorizedOperator, s)

/-- Current availability state from a newest-first transition history; a
Node with no recorded transitions is treated as online by default
(design spec section 4.6). -/
def currentAvailState (evs : List AvailEvent) : Bool :=
  match evs with
  | [] => true
  | e :: _ => e.online

/-- Availability history of a node (newest-first). -/
def availOf (s : State) (node : Nat) : List AvailEvent :=
  (((s.avail.find? (fun p => p.1 == node)).map (·.2)).getD [])

/-- Modelled from the spec: `mark_online(node)` appends a timestamped
online transition, idempotently (no duplicate transition when the node is
already online); fails with `UnknownNode` for an unregistered node
(design spec section 4.6). -/
def mark_online (now node : Nat) (s : State) : Except Err Unit × State :=
  if s.nodes.contains node = false then (.error .unknownNode, s)
  else
    let evs := availOf s node
    if currentAvailState evs = true then (.ok (), s)
    else (.ok (), { s with
      avail := (node, ⟨now, true⟩ :: evs)
        :: s.avail.filter (fun p => p.1 != node) })

/-- Modelled from the spec: `mark_offline(node)` appends a timestamped
offline transition, idempotently (design spec section 4.6). -/
def mark_offline (now node : Nat) (s : State) : Except Err Unit × State :=
  if s.nodes.contains node = false then (.error .unknownNode, s)
  else
    let evs := availOf s node
    if currentAvailState evs = false then (.ok (), s)
    else (.ok (), { s with
      avail := (node, ⟨now, false⟩ :: evs)
        :: s.avail.filter (fun p => p.1 != node) })

/-- Availability state of a history at a given time: the state set by the
most recent transition at or before that time, online by default. -/
def stateAt (evs : List AvailEvent) (t : Nat) : Bool :=
  match evs with
  | [] => true
  | e :: rest => if e.time ≤ t then e.online else stateAt rest t

/-- Time units spent online over the half-open window `[d1, d2)`. -/
def onlineTime (evs : List AvailEvent) (d1 d2 : Nat) : Nat :=
  ((List.range (d2 - d1)).map
    (fun k => if stateAt evs (d1 + k) then 1 else 0)).sum

/-- Modelled from the spec: `uptime_ratio(node, window)` walks the
transition history intersected with the window and computes the fraction of
time spent online, returned as the pair (time online, window length); a
node with no transitions in the window counts as online; fails with
`UnknownNode` for an unregistered node (design spec section 4.6). -/
def uptimeFraction (node d1 d2 : Nat) (s : State) :
    Except Err (Nat × Nat) × State :=
  if s.nodes.contains node = false then (.error .unknownNode, s)
  else (.ok (onlineTime (availOf s node) d1 d2, d2 - d1), s)

/-- The operation alphabet of the core: one constructor per externally
invocable operation of design spec section 4, each carrying the injected
current time where the operation is time-windowed. -/
inductive Op where
  | deposit (now app amount : Nat)
  | changeTier (app newTier : Nat)
  | cancel (app : Nat)
  | tick (now app : Nat)
  | status (app : Nat)
  | setTier (caller id fee limit : Nat)
  | getTier (id : Nat)
  | listTiers
  | addNode (caller node : Nat)
  | removeNode (caller node : Nat)
  | report (now inspector app node day storedB transferredB : Nat)
  | rollupByApp (app d1 d2 : Nat)
  | rollupByNode (node d1 d2 : Nat)
  | evictExpired (now : Nat)
  | credit (node amount : Nat)
  | withdraw (caller amount : Nat)
  | markOnline (now node : Nat)
  | markOffline (now node : Nat)
  | uptime (node d1 d2 : Nat)
deriving DecidableEq, Repr

/-- Whether an operation is the billing tick. -/
def Op.isTick : Op → Bool
  | .tick _ _ => true
  | _ => false

/-- Whether an operation is the subscription cancellation. -/
def Op.isCancel : Op → Bool
  | .cancel _ => true
  | _ => false

/-- Drop the reply value of an operation, keeping its error and post-state. -/
def dropVal {α : Type} (r : Except Err α × State) : Except Err Unit × State :=
  (r.1.map fun _ => (), r.2)

/-- One transition of the ledger state machine: dispatch an operation to
its implementation, keeping the error outcome and the post-state. -/
def step : Op → State → Except Err Unit × State
  | .deposit now app amount, s => deposit now app amount s
  | .changeTier app newTier, s => change_tier app newTier s
  | .cancel app, s => dropVal (cancel app s)
  | .tick now app, s => tick now app s
  | .status app, s => dropVal (status app s)
  | .setTier caller id fee limit, s => set_tier caller id fee limit s
  | .getTier id, s => dropVal (get_tier id s)
  | .listTiers, s => dropVal (list_tiers s)
  | .addNode caller node, s => add_node caller node s
  | .removeNode caller node, s => remove_node caller node s
  | .report now inspector app node day sb tb, s =>
      report now inspector app node day sb tb s
  | .rollupByApp app d1 d2, s => dropVal (rollup_by_app app d1 d2 s)
  | .rollupByNode node d1 d2, s => dropVal (rollup_by_node node d1 d2 s)
  | .evictExpired now, s => evict_expired now s
  | .credit node amount, s => credit node amount s
  | .withdraw caller amount, s => dropVal (withdraw caller amount s)
  | .markOnline now node, s => mark_online now node s
  | .markOffline now node, s => mark_offline now node s
  | .uptime node d1 d2, s => dropVal (uptimeFraction node d1 d2 s)

/-- Run a call sequence from a state, threading the post-states. -/
def run (ops : List Op) (s : State) : State :=
  ops.foldl (fun st o => (step o st).2) s

/-- The initial ledger state: a designated operator, an initial tier
configuration and an initial set of recognized Inspectors (Inspector
selection is emulated by the Operator per SPECIFICATION.md
"Assumptions"); everything else empty. -/
def initState (operator : Nat) (tiers0 : List (Nat × Tier))
    (inspectors0 : List Nat) : State :=
  { operator := operator, tiers := tiers0, subs := [], nodes := [],
    inspectors := inspectors0, reports := [], merged := [],
    revenuePool := 0, nodeRevenue := [], avail := [] }

/-- Test fixture: operator 99, one tier (id 1, fee 30, limit 5), three
recognized Inspectors and one registered node (id 10). -/
def mBase : State :=
  { initState 99 [(1, ⟨30, 5⟩)] [1, 2, 3] with nodes := [10] }

/-- Bound on the tier fee an operation may configure: `setTier` must stay
within `F`; all other operations configure no fee. -/
def Op.feeOK (F : Nat) : Op → Bool
  | .setTier _ _ fee _ => decide (fee ≤ F)
  | _ => true

/-- Bound on the injected time of the operations that create or consume
subscriptions. -/
def Op.timeOK (T : Nat) : Op → Bool
  | .deposit now _ _ => decide (now ≤ T)
  | .tick now _ => decide (now ≤ T)
  | _ => true

/-- All configured tier fees are bounded by `F`. -/
def FeeBound (F : Nat) (s : State) : Prop :=
  ∀ p ∈ s.tiers, p.2.fee ≤ F

/-- Per-subscription bookkeeping invariant: creation does not postdate
last-consumption, last-consumption does not postdate the time bound `T`,
and the total amount ever charged is bounded by the fee bound `F` times the
number of whole periods between creation and last-consumption. -/
def SubsInv (F T : Nat) (s : State) : Prop :=
  ∀ a sub, lookupSub s a = some sub →
    sub.createdAt ≤ sub.lastConsumption ∧ sub.lastConsumption ≤ T ∧
    sub.totalCharged
      ≤ F * ((sub.lastConsumption - sub.createdAt) / periodDays)

/-- The ledger invariant combining the fee bound and the per-subscription
bookkeeping invariant. -/
def LedgerInv (F T : Nat) (s : State) : Prop :=
  FeeBound F s ∧ SubsInv F T s

/-- Conservation invariant: for every subscription, the remaining balance
plus everything ever charged equals everything ever deposited (so the
balance is the non-negative difference of deposits and charges). -/
def ConsInv (s : State) : Prop :=
  ∀ a sub, lookupSub s a = some sub →
    sub.balance + sub.totalCharged = sub.totalDeposited

end DdcLedger

namespace DdcLedger

theorem find?_filter_ne {α : Type} (xs : List (Nat × α)) (a b : Nat)
    (h : b ≠ a) :
    (xs.filter (fun p => p.1 != a)).find? (fun p => p.1 == b)
      = xs.find? (fun p => p.1 == b) := by
  induction xs with
  | nil => rfl
  | cons x xs ih =>
      by_cases hxa : x.1 = a
      · have h1 : (x.1 != a) = false := by simp [hxa]
        have h2 : (x.1 == b) = false := by
          simp only [beq_eq_false_iff_ne, ne_eq, hxa]
          omega
        simp [List.filter_cons, h1, List.find?_cons, h2, ih]
      · have h1 : (x.1 != a) = true := by simp [hxa]
        by_cases hxb : x.1 = b
        · simp [List.filter_cons, h1, List.find?_cons, hxb, h]
        · have h2 : (x.1 == b) = false := by simp [hxb]
          simp [List.filter_cons, h1, List.find?_cons, h2, ih]

theorem find?_filter_self {α : Type} (xs : List (Nat × α)) (a : Nat) :
    (xs.filter (fun p => p.1 != a)).find? (fun p => p.1 == a) = none := by
  induction xs with
  | nil => rfl
  | cons x xs ih =>
      by_cases hxa : x.1 = a
      · have h1 : (x.1 != a) = false := by simp [hxa]
        simp [List.filter_cons, h1, ih]
      · have h1 : (x.1 != a) = true := by simp [hxa]
        have h2 : (x.1 == a) = false := by simp [hxa]
        simp [List.filter_cons, h1, List.find?_cons, h2, ih]

theorem lookupSub_setSub_self (s : State) (a : Nat) (sub : Subscription) :
    lookupSub (setSub s a sub) a = some sub := by
  simp [lookupSub, setSub, List.find?_cons]

theorem lookupSub_setSub_ne (s : State) (a b : Nat) (sub : Subscription)
    (h : b ≠ a) :
    lookupSub (setSub s a sub) b = lookupSub s b := by
  have h2 : (a == b) = false := by
    simp only [beq_eq_false_iff_ne, ne_eq]
    omega
  simp [lookupSub, setSub, List.find?_cons, h2, find?_filter_ne s.subs a b h]

theorem lookupSub_removeSub_self (s : State) (a : Nat) :
    lookupSub (removeSub s a) a = none := by
  simp [lookupSub, removeSub, find?_filter_self s.subs a]

theorem lookupSub_removeSub_ne (s : State) (a b : Nat) (h : b ≠ a) :
    lookupSub (removeSub s a) b = lookupSub s b := by
  simp [lookupSub, removeSub, find?_filter_ne s.subs a b h]

theorem tiers_setSub (s : State) (a : Nat) (sub : Subscription) :
    (setSub s a sub).tiers = s.tiers := rfl

theorem balanceOf_setSub_self (s : State) (a : Nat) (sub : Subscription) :
    balanceOf (setSub s a sub) a = sub.balance := by
  simp [balanceOf, lookupSub_setSub_self]

theorem balanceOf_setSub_ne (s : State) (a b : Nat) (sub : Subscription)
    (h : b ≠ a) :
    balanceOf (setSub s a sub) b = balanceOf s b := by
  simp [balanceOf, lookupSub_setSub_ne s a b sub h]

theorem balanceOf_eq_of_subs_eq {s s' : State} (h : s'.subs = s.subs)
    (a : Nat) : balanceOf s' a = balanceOf s a := by
  simp [balanceOf, lookupSub, h]

theorem consumePeriods_consumed (p b e : Nat) :
    (consumePeriods p b e).consumed = min (p * e) b := by
  induction e generalizing b with
  | zero => simp [consumePeriods]
  | succ k ih =>
      by_cases h : p ≤ b
      · simp only [consumePeriods, if_pos h, ih]
        rw [Nat.mul_succ]
        omega
      · simp only [consumePeriods, if_neg h]
        rw [Nat.mul_succ]
        omega

theorem consumePeriods_newBalance (p b e : Nat) :
    (consumePeriods p b e).newBalance = b - (consumePeriods p b e).consumed := by
  induction e generalizing b with
  | zero => simp [consumePeriods]
  | succ k ih =>
      by_cases h : p ≤ b
      · have hc := consumePeriods_consumed p (b - p) k
        simp only [consumePeriods, if_pos h, ih]
        omega
      · simp only [consumePeriods, if_neg h]
        omega

theorem consumePeriods_suspendedNow (p b e : Nat) :
    (consumePeriods p b e).suspendedNow = decide (b < p * e) := by
  induction e generalizing b with
  | zero => simp [consumePeriods]
  | succ k ih =>
      by_cases h : p ≤ b
      · simp only [consumePeriods, if_pos h, ih]
        rw [Nat.mul_succ, decide_eq_decide]
        omega
      · simp only [consumePeriods, if_neg h]
        rw [Nat.mul_succ, eq_comm, decide_eq_true_eq]
        omega

theorem consumePeriods_advanced_le (p b e : Nat) :
    (consumePeriods p b e).periodsAdvanced ≤ e := by
  induction e generalizing b with
  | zero => simp [consumePeriods]
  | succ k ih =>
      by_cases h : p ≤ b
      · simp only [consumePeriods, if_pos h]
        exact Nat.succ_le_succ (ih (b - p))
      · simp only [consumePeriods, if_neg h]
        omega

theorem consumePeriods_consumed_le_adv (p b e : Nat) :
    (consumePeriods p b e).consumed
      ≤ p * (consumePeriods p b e).periodsAdvanced := by
  induction e generalizing b with
  | zero => simp [consumePeriods]
  | succ k ih =>
      by_cases h : p ≤ b
      · have := ih (b - p)
        simp only [consumePeriods, if_pos h]
        rw [Nat.mul_succ]
        omega
      · simp only [consumePeriods, if_neg h]
        omega

theorem consumePeriods_consumed_le (p b e : Nat) :
    (consumePeriods p b e).consumed ≤ b := by
  rw [consumePeriods_consumed]
  omega

theorem tick_eq (now app : Nat) (s : State) (sub : Subscription) (t : Tier)
    (hs : lookupSub s app = some sub) (hns : sub.suspended = false)
    (ht : lookupTier s sub.tierId = some t) :
    tick now app s =
      (Except.ok (),
        { setSub s app { sub with
            balance := sub.balance
              - min (t.fee * ((now - sub.lastConsumption) / periodDays))
                  sub.balance,
            lastConsumption := sub.lastConsumption + periodDays
              * (consumePeriods t.fee sub.balance
                  ((now - sub.lastConsumption) / periodDays)).periodsAdvanced,
            suspended := decide (sub.balance
              < t.fee * ((now - sub.lastConsumption) / periodDays)),
            totalCharged := sub.totalCharged
              + min (t.fee * ((now - sub.lastConsumption) / periodDays))
                  sub.balance }
          with revenuePool := s.revenuePool
            + min (t.fee * ((now - sub.lastConsumption) / periodDays))
                sub.balance }) := by
  simp only [tick, hs, hns, ht, Bool.false_eq_true, if_false,
    consumePeriods_newBalance, consumePeriods_consumed,
    consumePeriods_suspendedNow]

theorem balanceOf_le_of_subs_eq {s s' : State} (h : s'.subs = s.subs)
    (a : Nat) : balanceOf s a ≤ balanceOf s' a :=
  Nat.le_of_eq (balanceOf_eq_of_subs_eq h a).symm

theorem balance_mono_step (o : Op) (hT : o.isTick = false)
    (hC : o.isCancel = false) (s : State) (a : Nat) :
    balanceOf s a ≤ balanceOf (step o s).2 a := by
  cases o with
  | tick now app => simp [Op.isTick] at hT
  | cancel app => simp [Op.isCancel] at hC
  | deposit now app amount =>
      cases hs : lookupSub s app with
      | some sub =>
          by_cases hov : sub.balance + amount ≤ maxBalance
          · by_cases hab : a = app
            · subst hab
              simp [step, deposit, hs, hov, balanceOf]
              rw [lookupSub_setSub_self]
              simp
            · simp [step, deposit, hs, hov,
                balanceOf_setSub_ne _ _ _ _ hab]
          · simp [step, deposit, hs, hov]
      | none =>
          cases hm : (s.tiers.map Prod.fst).min? with
          | some tid =>
              by_cases hov : amount ≤ maxBalance
              · by_cases hab : a = app
                · subst hab
                  simp [step, deposit, hs, hm, hov, balanceOf]
                · simp [step, deposit, hs, hm, hov,
                    balanceOf_setSub_ne _ _ _ _ hab]
              · simp [step, deposit, hs, hm, hov]
          | none => simp [step, deposit, hs, hm]
  | changeTier app newTier =>
      cases hs : lookupSub s app with
      | none => simp [step, change_tier, hs]
      | some sub =>
          cases htr : lookupTier s newTier with
          | none => simp [step, change_tier, hs, htr]
          | some t =>
              by_cases hl : t.limit = 0
              · simp [step, change_tier, hs, htr, hl]
              · by_cases hab : a = app
                · subst hab
                  simp [step, change_tier, hs, htr, hl, balanceOf]
                  rw [lookupSub_setSub_self]
                  simp
                · simp [step, change_tier, hs, htr, hl,
                    balanceOf_setSub_ne _ _ _ _ hab]
  | status app =>
      cases hs : lookupSub s app <;> simp [step, status, dropVal, hs]
  | setTier caller id fee limit =>
      refine balanceOf_le_of_subs_eq ?_ a
      simp only [step, set_tier]
      split_ifs <;> rfl
  | getTier id =>
      cases htr : lookupTier s id <;> simp [step, get_tier, dropVal, htr]
  | listTiers =>
      simp [step, list_tiers, dropVal]
  | addNode caller node =>
      refine balanceOf_le_of_subs_eq ?_ a
      simp only [step, add_node]
      split_ifs <;> rfl
  | removeNode caller node =>
      refine balanceOf_le_of_subs_eq ?_ a
      simp only [step, remove_node]
      split_ifs <;> rfl
  | report now inspector app node day sb tb =>
      refine balanceOf_le_of_subs_eq ?_ a
      simp only [step, report]
      split_ifs <;> rfl
  | rollupByApp app d1 d2 =>
      simp [step, rollup_by_app, dropVal]
  | rollupByNode node d1 d2 =>
      simp [step, rollup_by_node, dropVal]
  | evictExpired now =>
      refine balanceOf_le_of_subs_eq ?_ a
      simp only [step, evict_expired]
  | credit node amount =>
      refine balanceOf_le_of_subs_eq ?_ a
      simp only [step, credit]
  | withdraw caller amount =>
      refine balanceOf_le_of_subs_eq ?_ a
      simp only [step, withdraw, dropVal]
      split_ifs <;> rfl
  | markOnline now node =>
      refine balanceOf_le_of_subs_eq ?_ a
      simp only [step, mark_online]
      split_ifs <;> rfl
  | markOffline now node =>
      refine balanceOf_le_of_subs_eq ?_ a
      simp only [step, mark_offline]
      split_ifs <;> rfl
  | uptime node d1 d2 =>
      simp only [step, uptimeFraction, dropVal]
      split_ifs <;> simp

theorem run_cons (o : Op) (ops : List Op) (s : State) :
    run (o :: ops) s = run ops (step o s).2 := rfl

theorem fee_le_of_lookupTier {F : Nat} {s : State} (hF : FeeBound F s)
    {i : Nat} {t : Tier} (h : lookupTier s i = some t) : t.fee ≤ F := by
  unfold lookupTier at h
  cases hf : s.tiers.find? (fun p => p.1 == i) with
  | none => rw [hf] at h; simp at h
  | some p =>
      rw [hf] at h
      simp only [Option.map_some'] at h
      have hm := List.mem_of_find?_eq_some hf
      have := hF p hm
      exact (Option.some.inj h) ▸ this

theorem ledgerInv_of_eq {F T : Nat} {s s' : State} (hsub : s'.subs = s.subs)
    (htier : s'.tiers = s.tiers) (h : LedgerInv F T s) : LedgerInv F T s' := by
  obtain ⟨h1, h2⟩ := h
  refine ⟨fun p hp => h1 p (htier ▸ hp), fun a sub hx => h2 a sub ?_⟩
  rwa [lookupSub, hsub] at hx

theorem subsInv_setSub {F T : Nat} {s : State} (h : SubsInv F T s) (a : Nat)
    (sub : Subscription)
    (hsub : sub.createdAt ≤ sub.lastConsumption ∧ sub.lastConsumption ≤ T ∧
      sub.totalCharged
        ≤ F * ((sub.lastConsumption - sub.createdAt) / periodDays)) :
    SubsInv F T (setSub s a sub) := by
  intro b sub' hb
  by_cases hba : b = a
  · subst hba
    rw [lookupSub_setSub_self] at hb
    exact (Option.some.inj hb) ▸ hsub
  · rw [lookupSub_setSub_ne _ _ _ _ hba] at hb
    exact h b sub' hb

theorem consInv_of_subs_eq {s s' : State} (hsub : s'.subs = s.subs)
    (h : ConsInv s) : ConsInv s' := by
  intro a sub hx
  refine h a sub ?_
  rwa [lookupSub, hsub] at hx

theorem consInv_setSub {s : State} (h : ConsInv s) (a : Nat)
    (sub : Subscription)
    (hsub : sub.balance + sub.totalCharged = sub.totalDeposited) :
    ConsInv (setSub s a sub) := by
  intro b sub' hb
  by_cases hba : b = a
  · subst hba
    rw [lookupSub_setSub_self] at hb
    exact (Option.some.inj hb) ▸ hsub
  · rw [lookupSub_setSub_ne _ _ _ _ hba] at hb
    exact h b sub' hb

theorem ledgerInv_step (F T : Nat) (o : Op) (s : State)
    (hf : Op.feeOK F o = true) (ht : Op.timeOK T o = true)
    (h : LedgerInv F T s) : LedgerInv F T (step o s).2 := by
  cases o with
  | deposit now app amount =>
      have hnow : now ≤ T := of_decide_eq_true ht
      cases hs : lookupSub s app with
      | some sub =>
          by_cases hov : sub.balance + amount ≤ maxBalance
          · have hpost : (step (Op.deposit now app amount) s).2
                = setSub s app { sub with
                    balance := sub.balance + amount,
                    totalDeposited := sub.totalDeposited + amount } := by
              simp [step, deposit, hs, hov]
            rw [hpost]
            refine ⟨fun p hp => h.1 p hp, subsInv_setSub h.2 app _ ?_⟩
            simpa using h.2 app sub hs
          · have hpost : (step (Op.deposit now app amount) s).2 = s := by
              simp [step, deposit, hs, hov]
            rw [hpost]; exact h
      | none =>
          cases hm : (s.tiers.map Prod.fst).min? with
          | some tid =>
              by_cases hov : amount ≤ maxBalance
              · have hpost : (step (Op.deposit now app amount) s).2
                    = setSub s app {
                        tierId := tid, balance := amount,
                        createdAt := now, lastConsumption := now,
                        suspended := false, totalCharged := 0,
                        totalDeposited := amount } := by
                  simp [step, deposit, hs, hm, hov]
                rw [hpost]
                refine ⟨fun p hp => h.1 p hp, subsInv_setSub h.2 app _ ?_⟩
                simp [hnow]
              · have hpost : (step (Op.deposit now app amount) s).2 = s := by
                  simp [step, deposit, hs, hm, hov]
                rw [hpost]; exact h
          | none =>
              have hpost : (step (Op.deposit now app amount) s).2 = s := by
                simp [step, deposit, hs, hm]
              rw [hpost]; exact h
  | changeTier app newTier =>
      cases hs : lookupSub s app with
      | none =>
          have hpost : (step (Op.changeTier app newTier) s).2 = s := by
            simp [step, change_tier, hs]
          rw [hpost]; exact h
      | some sub =>
          cases htr : lookupTier s newTier with
          | none =>
              have hpost : (step (Op.changeTier app newTier) s).2 = s := by
                simp [step, change_tier, hs, htr]
              rw [hpost]; exact h
          | some t =>
              by_cases hl : t.limit = 0
              · have hpost : (step (Op.changeTier app newTier) s).2 = s := by
                  simp [step, change_tier, hs, htr, hl]
                rw [hpost]; exact h
              · have hpost : (step (Op.changeTier app newTier) s).2
                    = setSub s app { sub with tierId := newTier } := by
                  simp [step, change_tier, hs, htr, hl]
                rw [hpost]
                refine ⟨fun p hp => h.1 p hp, subsInv_setSub h.2 app _ ?_⟩
                simpa using h.2 app sub hs
  | cancel app =>
      cases hs : lookupSub s app with
      | none =>
          have hpost : (step (Op.cancel app) s).2 = s := by
            simp [step, cancel, dropVal, hs]
          rw [hpost]; exact h
      | some sub =>
          have hpost : (step (Op.cancel app) s).2 = removeSub s app := by
            simp [step, cancel, dropVal, hs]
          rw [hpost]
          refine ⟨fun p hp => h.1 p hp, fun b sub' hb => ?_⟩
          by_cases hba : b = app
          · subst hba; rw [lookupSub_removeSub_self] at hb; cases hb
          · rw [lookupSub_removeSub_ne _ _ _ hba] at hb
            exact h.2 b sub' hb
  | tick now app =>
      have hnow : now ≤ T := of_decide_eq_true ht
      cases hs : lookupSub s app with
      | none =>
          have hpost : (step (Op.tick now app) s).2 = s := by
            simp [step, tick, hs]
          rw [hpost]; exact h
      | some sub =>
          by_cases hsusp : sub.suspended = true
          · have hpost : (step (Op.tick now app) s).2 = s := by
              simp [step, tick, hs, hsusp]
            rw [hpost]; exact h
          · have hns : sub.suspended = false := by
              simpa using hsusp
            cases htr : lookupTier s sub.tierId with
            | none =>
                have hpost : (step (Op.tick now app) s).2 = s := by
                  simp [step, tick, hs, hns, htr]
                rw [hpost]; exact h
            | some t =>
                have hteq := tick_eq now app s sub t hs hns htr
                have hpost : (step (Op.tick now app) s).2
                    = { setSub s app { sub with
                        balance := sub.balance
                          - min (t.fee * ((now - sub.lastConsumption)
                              / periodDays)) sub.balance,
                        lastConsumption := sub.lastConsumption + periodDays
                          * (consumePeriods t.fee sub.balance
                              ((now - sub.lastConsumption)
                                / periodDays)).periodsAdvanced,
                        suspended := decide (sub.balance
                          < t.fee * ((now - sub.lastConsumption)
                              / periodDays)),
                        totalCharged := sub.totalCharged
                          + min (t.fee * ((now - sub.lastConsumption)
                              / periodDays)) sub.balance }
                      with revenuePool := s.revenuePool
                        + min (t.fee * ((now - sub.lastConsumption)
                            / periodDays)) sub.balance } := by
                  show (tick now app s).2 = _
                  rw [hteq]
                rw [hpost]
                refine ledgerInv_of_eq rfl rfl ?_
                obtain ⟨hcl, hlT, hch⟩ := h.2 app sub hs
                have hfee : t.fee ≤ F := fee_le_of_lookupTier h.1 htr
                have hpa := consumePeriods_advanced_le t.fee sub.balance
                  ((now - sub.lastConsumption) / periodDays)
                have hdm : ((now - sub.lastConsumption) / periodDays)
                    * periodDays ≤ now - sub.lastConsumption :=
                  Nat.div_mul_le_self _ _
                have hmin : min (t.fee * ((now - sub.lastConsumption)
                    / periodDays)) sub.balance
                    ≤ t.fee * (consumePeriods t.fee sub.balance
                        ((now - sub.lastConsumption)
                          / periodDays)).periodsAdvanced := by
                  rw [← consumePeriods_consumed]
                  exact consumePeriods_consumed_le_adv _ _ _
                refine ⟨fun p hp => h.1 p hp, subsInv_setSub h.2 app _ ?_⟩
                have hmul : periodDays
                    * (consumePeriods t.fee sub.balance
                        ((now - sub.lastConsumption)
                          / periodDays)).periodsAdvanced
                    ≤ now - sub.lastConsumption := by
                  calc periodDays
                      * (consumePeriods t.fee sub.balance
                          ((now - sub.lastConsumption)
                            / periodDays)).periodsAdvanced
                      ≤ periodDays * ((now - sub.lastConsumption)
                          / periodDays) := Nat.mul_le_mul_left _ hpa
                    _ = ((now - sub.lastConsumption) / periodDays)
                        * periodDays := Nat.mul_comm _ _
                    _ ≤ now - sub.lastConsumption := hdm
                refine ⟨by simp; omega, ?_, ?_⟩
                · simp only []
                  omega
                · simp only []
                  have harr : sub.lastConsumption + periodDays
                      * (consumePeriods t.fee sub.balance
                          ((now - sub.lastConsumption)
                            / periodDays)).periodsAdvanced
                      - sub.createdAt
                      = (sub.lastConsumption - sub.createdAt) + periodDays
                        * (consumePeriods t.fee sub.balance
                            ((now - sub.lastConsumption)
                              / periodDays)).periodsAdvanced := by
                    omega
                  rw [harr, Nat.add_mul_div_left _ _
                    (by decide : 0 < periodDays), Nat.mul_add]
                  have hFpa : min (t.fee * ((now - sub.lastConsumption)
                      / periodDays)) sub.balance
                      ≤ F * (consumePeriods t.fee sub.balance
                          ((now - sub.lastConsumption)
                            / periodDays)).periodsAdvanced :=
                    le_trans hmin (Nat.mul_le_mul_right _ hfee)
                  omega
  | status app =>
      refine ledgerInv_of_eq ?_ ?_ h <;>
        cases hs : lookupSub s app <;> simp [step, status, dropVal, hs]
  | setTier caller id fee limit =>
      by_cases hc : caller = s.operator
      · have hpost : (step (Op.setTier caller id fee limit) s).2
            = { s with tiers := (id, ⟨fee, limit⟩)
                :: s.tiers.filter (fun p => p.1 != id) } := by
          simp [step, set_tier, hc]
        rw [hpost]
        have hfF : fee ≤ F := of_decide_eq_true hf
        refine ⟨fun p hp => ?_, fun a sub hx => h.2 a sub hx⟩
        rcases List.mem_cons.mp hp with hp | hp
        · rw [hp]; exact hfF
        · exact h.1 p (List.mem_of_mem_filter hp)
      · have hpost : (step (Op.setTier caller id fee limit) s).2 = s := by
          simp [step, set_tier, hc]
        rw [hpost]; exact h
  | getTier id =>
      refine ledgerInv_of_eq ?_ ?_ h <;>
        cases htr : lookupTier s id <;> simp [step, get_tier, dropVal, htr]
  | listTiers =>
      refine ledgerInv_of_eq ?_ ?_ h <;> simp [step, list_tiers, dropVal]
  | addNode caller node =>
      refine ledgerInv_of_eq ?_ ?_ h <;>
        (simp only [step, add_node]; split_ifs <;> rfl)
  | removeNode caller node =>
      refine ledgerInv_of_eq ?_ ?_ h <;>
        (simp only [step, remove_node]; split_ifs <;> rfl)
  | report now inspector app node day sb tb =>
      refine ledgerInv_of_eq ?_ ?_ h <;>
        (simp only [step, report]; split_ifs <;> rfl)
  | rollupByApp app d1 d2 =>
      refine ledgerInv_of_eq ?_ ?_ h <;> simp [step, rollup_by_app, dropVal]
  | rollupByNode node d1 d2 =>
      refine ledgerInv_of_eq ?_ ?_ h <;> simp [step, rollup_by_node, dropVal]
  | evictExpired now =>
      refine ledgerInv_of_eq ?_ ?_ h <;> simp [step, evict_expired]
  | credit node amount =>
      refine ledgerInv_of_eq ?_ ?_ h <;> simp [step, credit]
  | withdraw caller amount =>
      refine ledgerInv_of_eq ?_ ?_ h <;>
        (simp only [step, withdraw, dropVal]; split_ifs <;> rfl)
  | markOnline now node =>
      refine ledgerInv_of_eq ?_ ?_ h <;>
        (simp only [step, mark_online]; split_ifs <;> rfl)
  | markOffline now node =>
      refine ledgerInv_of_eq ?_ ?_ h <;>
        (simp only [step, mark_offline]; split_ifs <;> rfl)
  | uptime node d1 d2 =>
      refine ledgerInv_of_eq ?_ ?_ h <;>
        (simp only [step, uptimeFraction, dropVal]; split_ifs <;> rfl)

theorem consInv_step (o : Op) (s : State) (h : ConsInv s) :
    ConsInv (step o s).2 := by
  cases o with
  | deposit now app amount =>
      cases hs : lookupSub s app with
      | some sub =>
          by_cases hov : sub.balance + amount ≤ maxBalance
          · have hpost : (step (Op.deposit now app amount) s).2
                = setSub s app { sub with
                    balance := sub.balance + amount,
                    totalDeposited := sub.totalDeposited + amount } := by
              simp [step, deposit, hs, hov]
            rw [hpost]
            refine consInv_setSub h app _ ?_
            have := h app sub hs
            simp
            omega
          · have hpost : (step (Op.deposit now app amount) s).2 = s := by
              simp [step, deposit, hs, hov]
            rw [hpost]; exact h
      | none =>
          cases hm : (s.tiers.map Prod.fst).min? with
          | some tid =>
              by_cases hov : amount ≤ maxBalance
              · have hpost : (step (Op.deposit now app amount) s).2
                    = setSub s app {
                        tierId := tid, balance := amount,
                        createdAt := now, lastConsumption := now,
                        suspended := false, totalCharged := 0,
                        totalDeposited := amount } := by
                  simp [step, deposit, hs, hm, hov]
                rw [hpost]
                exact consInv_setSub h app _ (by simp)
              · have hpost : (step (Op.deposit now app amount) s).2 = s := by
                  simp [step, deposit, hs, hm, hov]
                rw [hpost]; exact h
          | none =>
              have hpost : (step (Op.deposit now app amount) s).2 = s := by
                simp [step, deposit, hs, hm]
              rw [hpost]; exact h
  | changeTier app newTier =>
      cases hs : lookupSub s app with
      | none =>
          have hpost : (step (Op.changeTier app newTier) s).2 = s := by
            simp [step, change_tier, hs]
          rw [hpost]; exact h
      | some sub =>
          cases htr : lookupTier s newTier with
          | none =>
              have hpost : (step (Op.changeTier app newTier) s).2 = s := by
                simp [step, change_tier, hs, htr]
              rw [hpost]; exact h
          | some t =>
              by_cases hl : t.limit = 0
              · have hpost : (step (Op.changeTier app newTier) s).2 = s := by
                  simp [step, change_tier, hs, htr, hl]
                rw [hpost]; exact h
              · have hpost : (step (Op.changeTier app newTier) s).2
                    = setSub s app { sub with tierId := newTier } := by
                  simp [step, change_tier, hs, htr, hl]
                rw [hpost]
                refine consInv_setSub h app _ ?_
                simpa using h app sub hs
  | cancel app =>
      cases hs : lookupSub s app with
      | none =>
          have hpost : (step (Op.cancel app) s).2 = s := by
            simp [step, cancel, dropVal, hs]
          rw [hpost]; exact h
      | some sub =>
          have hpost : (step (Op.cancel app) s).2 = removeSub s app := by
            simp [step, cancel, dropVal, hs]
          rw [hpost]
          intro b sub' hb
          by_cases hba : b = app
          · subst hba; rw [lookupSub_removeSub_self] at hb; cases hb
          · rw [lookupSub_removeSub_ne _ _ _ hba] at hb
            exact h b sub' hb
  | tick now app =>
      cases hs : lookupSub s app with
      | none =>
          have hpost : (step (Op.tick now app) s).2 = s := by
            simp [step, tick, hs]
          rw [hpost]; exact h
      | some sub =>
          by_cases hsusp : sub.suspended = true
          · have hpost : (step (Op.tick now app) s).2 = s := by
              simp [step, tick, hs, hsusp]
            rw [hpost]; exact h
          · have hns : sub.suspended = false := by
              simpa using hsusp
            cases htr : lookupTier s sub.tierId with
            | none =>
                have hpost : (step (Op.tick now app) s).2 = s := by
                  simp [step, tick, hs, hns, htr]
                rw [hpost]; exact h
            | some t =>
                have hteq := tick_eq now app s sub t hs hns htr
                have hpost : (step (Op.tick now app) s).2
                    = { setSub s app { sub with
                        balance := sub.balance
                          - min (t.fee * ((now - sub.lastConsumption)
                              / periodDays)) sub.balance,
                        lastConsumption := sub.lastConsumption + periodDays
                          * (consumePeriods t.fee sub.balance
                              ((now - sub.lastConsumption)
                                / periodDays)).periodsAdvanced,
                        suspended := decide (sub.balance
                          < t.fee * ((now - sub.lastConsumption)
                              / periodDays)),
                        totalCharged := sub.totalCharged
                          + min (t.fee * ((now - sub.lastConsumption)
                              / periodDays)) sub.balance }
                      with revenuePool := s.revenuePool
                        + min (t.fee * ((now - sub.lastConsumption)
                            / periodDays)) sub.balance } := by
                  show (tick now app s).2 = _
                  rw [hteq]
                rw [hpost]
                refine consInv_of_subs_eq rfl ?_
                refine consInv_setSub h app _ ?_
                have := h app sub hs
                simp
                omega
  | status app =>
      refine consInv_of_subs_eq ?_ h
      cases hs : lookupSub s app <;> simp [step, status, dropVal, hs]
  | setTier caller id fee limit =>
      refine consInv_of_subs_eq ?_ h
      simp only [step, set_tier]
      split_ifs <;> rfl
  | getTier id =>
      refine consInv_of_subs_eq ?_ h
      cases htr : lookupTier s id <;> simp [step, get_tier, dropVal, htr]
  | listTiers =>
      refine consInv_of_subs_eq ?_ h
      simp [step, list_tiers, dropVal]
  | addNode caller node =>
      refine consInv_of_subs_eq ?_ h
      simp only [step, add_node]
      split_ifs <;> rfl
  | removeNode caller node =>
      refine consInv_of_subs_eq ?_ h
      simp only [step, remove_node]
      split_ifs <;> rfl
  | report now inspector app node day sb tb =>
      refine consInv_of_subs_eq ?_ h
      simp only [step, report]
      split_ifs <;> rfl
  | rollupByApp app d1 d2 =>
      refine consInv_of_subs_eq ?_ h
      simp [step, rollup_by_app, dropVal]
  | rollupByNode node d1 d2 =>
      refine consInv_of_subs_eq ?_ h
      simp [step, rollup_by_node, dropVal]
  | evictExpired now =>
      refine consInv_of_subs_eq ?_ h
      simp [step, evict_expired]
  | credit node amount =>
      refine consInv_of_subs_eq ?_ h
      simp [step, credit]
  | withdraw caller amount =>
      refine consInv_of_subs_eq ?_ h
      simp only [step, withdraw, dropVal]
      split_ifs <;> rfl
  | markOnline now node =>
      refine consInv_of_subs_eq ?_ h
      simp only [step, mark_online]
      split_ifs <;> rfl
  | markOffline now node =>
      refine consInv_of_subs_eq ?_ h
      simp only [step, mark_offline]
      split_ifs <;> rfl
  | uptime node d1 d2 =>
      refine consInv_of_subs_eq ?_ h
      simp only [step, uptimeFraction, dropVal]
      split_ifs <;> rfl

theorem ledgerInv_run (F T : Nat) (ops : List Op) (s : State)
    (hf : ∀ o ∈ ops, Op.feeOK F o = true)
    (ht : ∀ o ∈ ops, Op.timeOK T o = true)
    (h : LedgerInv F T s) : LedgerInv F T (run ops s) := by
  induction ops generalizing s with
  | nil => exact h
  | cons o ops ih =>
      rw [run_cons]
      exact ih (step o s).2
        (fun x hx => hf x (List.mem_cons_of_mem _ hx))
        (fun x hx => ht x (List.mem_cons_of_mem _ hx))
        (ledgerInv_step F T o s (hf o (List.mem_cons_self _ _))
          (ht o (List.mem_cons_self _ _)) h)

theorem consInv_run (ops : List Op) (s : State) (h : ConsInv s) :
    ConsInv (run ops s) := by
  induction ops generalizing s with
  | nil => exact h
  | cons o ops ih =>
      rw [run_cons]
      exact ih (step o s).2 (consInv_step o s h)

theorem ledgerInv_init (F T : Nat) (opr : Nat) (tiers0 : List (Nat × Tier))
    (insp0 : List Nat) (hF : ∀ p ∈ tiers0, p.2.fee ≤ F) :
    LedgerInv F T (initState opr tiers0 insp0) := by
  refine ⟨hF, fun a sub hx => ?_⟩
  simp [lookupSub, initState] at hx

theorem consInv_init (opr : Nat) (tiers0 : List (Nat × Tier))
    (insp0 : List Nat) : ConsInv (initState opr tiers0 insp0) := by
  intro a sub hx
  simp [lookupSub, initState] at hx

theorem tick_ok (now app : Nat) (s : State) (sub : Subscription) (t : Tier)
    (hs : lookupSub s app = some sub) (hns : sub.suspended = false)
    (ht : lookupTier s sub.tierId = some t) :
    (tick now app s).1 = Except.ok () := by
  rw [tick_eq now app s sub t hs hns ht]

theorem tick_post_lookup (now app : Nat) (s : State) (sub : Subscription)
    (t : Tier) (hs : lookupSub s app = some sub)
    (hns : sub.suspended = false) (ht : lookupTier s sub.tierId = some t) :
    lookupSub (tick now app s).2 app = some { sub with
      balance := sub.balance
        - min (t.fee * ((now - sub.lastConsumption) / periodDays))
            sub.balance,
      lastConsumption := sub.lastConsumption + periodDays
        * (consumePeriods t.fee sub.balance
            ((now - sub.lastConsumption) / periodDays)).periodsAdvanced,
      suspended := decide (sub.balance
        < t.fee * ((now - sub.lastConsumption) / periodDays)),
      totalCharged := sub.totalCharged
        + min (t.fee * ((now - sub.lastConsumption) / periodDays))
            sub.balance } := by
  rw [tick_eq now app s sub t hs hns ht]
  exact lookupSub_setSub_self _ _ _

theorem tick_post_pool (now app : Nat) (s : State) (sub : Subscription)
    (t : Tier) (hs : lookupSub s app = some sub)
    (hns : sub.suspended = false) (ht : lookupTier s sub.tierId = some t) :
    (tick now app s).2.revenuePool = s.revenuePool
      + min (t.fee * ((now - sub.lastConsumption) / periodDays))
          sub.balance := by
  rw [tick_eq now app s sub t hs hns ht]

theorem medianNat_single (v : Nat) : medianNat [v] = v := by
  simp [medianNat, List.insertionSort, List.orderedInsert]

theorem medianNat_pair (a b : Nat) : medianNat [a, b] = (a + b) / 2 := by
  by_cases hab : a ≤ b
  · simp [medianNat, List.insertionSort, List.orderedInsert, hab]
  · have hba : b ≤ a := le_of_not_le hab
    simp [medianNat, List.insertionSort, List.orderedInsert, hab, hba]
    rw [Nat.add_comm]

theorem medianNat_sorted3 (a b c : Nat) (h1 : a ≤ b) (h2 : b ≤ c) :
    medianNat [a, b, c] = b := by
  have h13 : a ≤ c := le_trans h1 h2
  simp [medianNat, List.insertionSort, List.orderedInsert, h1, h2, h13]

theorem rollup_by_app_evicted (s : State) (now app d1 d2 : Nat)
    (h : d2 + periodDays ≤ now) :
    (rollup_by_app app d1 d2 (evict_expired now s).2).1
      = Except.ok (0, 0) := by
  simp only [rollup_by_app, evict_expired]
  have hnil : List.filter
      (fun m => m.app == app && decide (d1 ≤ m.day) && decide (m.day ≤ d2))
      (List.filter (fun m => decide (now < m.day + periodDays)) s.merged)
      = [] := by
    refine List.filter_eq_nil_iff.mpr ?_
    intro m hm
    have hk := (List.mem_filter.mp hm).2
    simp only [decide_eq_true_eq] at hk
    simp only [Bool.and_eq_true, decide_eq_true_eq, beq_iff_eq, not_and]
    intro _
    omega
  rw [hnil]
  rfl

end DdcLedger

/-- C1: for every reachable ledger state, no operation other than `tick`
and `cancel` ever decreases the Subscription balance of any App (first
conjunct: every non-tick, non-cancel operation of the core leaves every
balance of every App no smaller); and over any call sequence issued by any
combination of actors, an App is never charged more than the configured
tier price times the number of elapsed whole 31-day periods (second
conjunct: if all tier fees ever configured are at most `F` and all
injected times are at most `T`, then the total charged amount of every
subscription is bounded by `F` times the whole periods elapsed since its
creation, up to time `T`). -/
theorem C1_no_charge_beyond_subscription :
    (∀ (o : DdcLedger.Op), o.isTick = false → o.isCancel = false →
      ∀ (s : DdcLedger.State) (a : Nat),
        DdcLedger.balanceOf s a ≤ DdcLedger.balanceOf (DdcLedger.step o s).2 a)
    ∧ (∀ (F T opr : Nat) (tiers0 : List (Nat × DdcLedger.Tier))
        (insp0 : List Nat) (ops : List DdcLedger.Op),
        (∀ p ∈ tiers0, p.2.fee ≤ F) →
        (∀ o ∈ ops, DdcLedger.Op.feeOK F o = true) →
        (∀ o ∈ ops, DdcLedger.Op.timeOK T o = true) →
        ∀ (a : Nat) (sub : DdcLedger.Subscription),
          DdcLedger.lookupSub
            (DdcLedger.run ops (DdcLedger.initState opr tiers0 insp0)) a
            = some sub →
          sub.totalCharged
            ≤ F * ((T - sub.createdAt) / DdcLedger.periodDays)) := by
  constructor
  · exact DdcLedger.balance_mono_step
  · intro F T opr tiers0 insp0 ops hF hf ht a sub hx
    have hinv := DdcLedger.ledgerInv_run F T ops _ hf ht
      (DdcLedger.ledgerInv_init F T opr tiers0 insp0 hF)
    obtain ⟨hcl, hlT, hch⟩ := hinv.2 a sub hx
    have hdiv : (sub.lastConsumption - sub.createdAt) / DdcLedger.periodDays
        ≤ (T - sub.createdAt) / DdcLedger.periodDays :=
      Nat.div_le_div_right (by omega)
    exact le_trans hch (Nat.mul_le_mul_left F hdiv)

/-- C1 witness at concrete inputs: `set_tier` (a non-tick, non-cancel
operation) does not decrease the balance of App 7, and after deposit 100 and one
tick at time 62 over a fee-30 tier the total charged 60 is within
30 × (62 / 31) = 60. -/
theorem C1_no_charge_beyond_subscription_witness :
    (DdcLedger.balanceOf (DdcLedger.initState 99 [(1, ⟨30, 5⟩)] []) 7
      ≤ DdcLedger.balanceOf
          (DdcLedger.step (DdcLedger.Op.setTier 99 2 50 5)
            (DdcLedger.initState 99 [(1, ⟨30, 5⟩)] [])).2 7)
    ∧ 60 ≤ 30 * ((62 - 0) / DdcLedger.periodDays) := by
  constructor
  · exact C1_no_charge_beyond_subscription.1
      (DdcLedger.Op.setTier 99 2 50 5) rfl rfl _ 7
  · exact C1_no_charge_beyond_subscription.2 30 62 99 [(1, ⟨30, 5⟩)] []
      [DdcLedger.Op.deposit 0 7 100, DdcLedger.Op.tick 62 7]
      (by decide) (by decide) (by decide) 7
      { tierId := 1, balance := 40, createdAt := 0, lastConsumption := 62,
        suspended := false, totalCharged := 60, totalDeposited := 100 }
      (by decide)

/-- C2: a `tick` on an App with an unsuspended subscription and configured
tier deducts exactly the tier fee once per elapsed whole 31-day period,
bounded by the available balance (never more than the balance, hence the
balance never goes negative), credits the revenue pool with the same
amount, charges exactly fee × periods when the balance suffices (leaving
the suspended flag clear), deducts everything available and suspends when
the balance is insufficient, and charges nothing before a whole period has
elapsed (no pro-rating); moreover over any call sequence from an initial
state every subscription satisfies balance + total charged = total
deposited. -/
theorem C2_tick_consumption_and_nonnegativity :
    (∀ (now app : Nat) (s : DdcLedger.State) (sub : DdcLedger.Subscription)
      (t : DdcLedger.Tier),
      DdcLedger.lookupSub s app = some sub → sub.suspended = false →
      DdcLedger.lookupTier s sub.tierId = some t →
      ((DdcLedger.tick now app s).1 = Except.ok ()
        ∧ DdcLedger.balanceOf (DdcLedger.tick now app s).2 app
            = sub.balance - min (t.fee * ((now - sub.lastConsumption)
                / DdcLedger.periodDays)) sub.balance
        ∧ min (t.fee * ((now - sub.lastConsumption)
            / DdcLedger.periodDays)) sub.balance ≤ sub.balance
        ∧ (DdcLedger.tick now app s).2.revenuePool
            = s.revenuePool + min (t.fee * ((now - sub.lastConsumption)
                / DdcLedger.periodDays)) sub.balance
        ∧ (t.fee * ((now - sub.lastConsumption) / DdcLedger.periodDays)
              ≤ sub.balance →
            DdcLedger.balanceOf (DdcLedger.tick now app s).2 app
              = sub.balance - t.fee * ((now - sub.lastConsumption)
                  / DdcLedger.periodDays)
            ∧ (DdcLedger.lookupSub (DdcLedger.tick now app s).2 app).map
                DdcLedger.Subscription.suspended = some false)
        ∧ (sub.balance < t.fee * ((now - sub.lastConsumption)
              / DdcLedger.periodDays) →
            DdcLedger.balanceOf (DdcLedger.tick now app s).2 app = 0
            ∧ (DdcLedger.lookupSub (DdcLedger.tick now app s).2 app).map
                DdcLedger.Subscription.suspended = some true)
        ∧ (now - sub.lastConsumption < DdcLedger.periodDays →
            DdcLedger.balanceOf (DdcLedger.tick now app s).2 app
              = sub.balance)))
    ∧ (∀ (opr : Nat) (tiers0 : List (Nat × DdcLedger.Tier))
        (insp0 : List Nat) (ops : List DdcLedger.Op) (a : Nat)
        (sub : DdcLedger.Subscription),
        DdcLedger.lookupSub
          (DdcLedger.run ops (DdcLedger.initState opr tiers0 insp0)) a
          = some sub →
        sub.balance + sub.totalCharged = sub.totalDeposited) := by
  constructor
  · intro now app s sub t hs hns ht
    have hlk := DdcLedger.tick_post_lookup now app s sub t hs hns ht
    have hbal : DdcLedger.balanceOf (DdcLedger.tick now app s).2 app
        = sub.balance - min (t.fee * ((now - sub.lastConsumption)
            / DdcLedger.periodDays)) sub.balance := by
      simp [DdcLedger.balanceOf, hlk]
    refine ⟨DdcLedger.tick_ok now app s sub t hs hns ht, hbal, ?_, ?_, ?_, ?_, ?_⟩
    · omega
    · exact DdcLedger.tick_post_pool now app s sub t hs hns ht
    · intro hsuff
      constructor
      · rw [hbal]
        omega
      · rw [hlk]
        simp
        omega
    · intro hins
      constructor
      · rw [hbal]
        omega
      · rw [hlk]
        simp
        omega
    · intro hmid
      rw [hbal, Nat.div_eq_of_lt hmid]
      simp
  · intro opr tiers0 insp0 ops a sub hx
    exact DdcLedger.consInv_run ops _
      (DdcLedger.consInv_init opr tiers0 insp0) a sub hx

/-- C2 witness at concrete inputs: after deposit 100 at time 0 on a fee-30
tier, the tick at time 62 succeeds (two whole periods, charge 60), and in
the resulting state balance 40 + charged 60 = deposited 100. -/
theorem C2_tick_consumption_and_nonnegativity_witness :
    (DdcLedger.tick 62 7
      (DdcLedger.run [DdcLedger.Op.deposit 0 7 100]
        (DdcLedger.initState 99 [(1, ⟨30, 5⟩)] []))).1 = Except.ok ()
    ∧ 40 + 60 = 100 := by
  constructor
  · exact (C2_tick_consumption_and_nonnegativity.1 62 7
      (DdcLedger.run [DdcLedger.Op.deposit 0 7 100]
        (DdcLedger.initState 99 [(1, ⟨30, 5⟩)] []))
      { tierId := 1, balance := 100, createdAt := 0, lastConsumption := 0,
        suspended := false, totalCharged := 0, totalDeposited := 100 }
      ⟨30, 5⟩ (by decide) (by decide) (by decide)).1
  · exact C2_tick_consumption_and_nonnegativity.2 99 [(1, ⟨30, 5⟩)] []
      [DdcLedger.Op.deposit 0 7 100, DdcLedger.Op.tick 62 7] 7
      { tierId := 1, balance := 40, createdAt := 0, lastConsumption := 62,
        suspended := false, totalCharged := 60, totalDeposited := 100 }
      (by decide)

/-- C4: every operation of the core is all-or-nothing: whenever an
operation returns any error kind, the post-state is exactly the pre-state —
no partial mutation survives an error. -/
theorem C4_errors_leave_state_unchanged (o : DdcLedger.Op)
    (s : DdcLedger.State) (e : DdcLedger.Err)
    (h : (DdcLedger.step o s).1 = Except.error e) :
    (DdcLedger.step o s).2 = s := by
  open DdcLedger in
  cases o with
  | deposit now app amount =>
      cases hs : lookupSub s app with
      | some sub =>
          by_cases hov : sub.balance + amount ≤ maxBalance
          · simp [step, deposit, hs, hov] at h
          · simp [step, deposit, hs, hov]
      | none =>
          cases hm : (s.tiers.map Prod.fst).min? with
          | some tid =>
              by_cases hov : amount ≤ maxBalance
              · simp [step, deposit, hs, hm, hov] at h
              · simp [step, deposit, hs, hm, hov]
          | none => simp [step, deposit, hs, hm]
  | changeTier app newTier =>
      cases hs : lookupSub s app with
      | none => simp [step, change_tier, hs]
      | some sub =>
          cases htr : lookupTier s newTier with
          | none => simp [step, change_tier, hs, htr]
          | some t =>
              by_cases hl : t.limit = 0
              · simp [step, change_tier, hs, htr, hl]
              · simp [step, change_tier, hs, htr, hl] at h
  | cancel app =>
      cases hs : lookupSub s app with
      | none => simp [step, cancel, dropVal, hs]
      | some sub => simp [step, cancel, dropVal, hs, Except.map] at h
  | tick now app =>
      cases hs : lookupSub s app with
      | none => simp [step, tick, hs]
      | some sub =>
          by_cases hsusp : sub.suspended = true
          · simp [step, tick, hs, hsusp] at h
          · have hns : sub.suspended = false := by simpa using hsusp
            cases htr : lookupTier s sub.tierId with
            | none => simp [step, tick, hs, hns, htr]
            | some t => simp [step, tick, hs, hns, htr] at h
  | status app =>
      cases hs : lookupSub s app <;> simp [step, status, dropVal, hs]
  | setTier caller id fee limit =>
      by_cases hc : caller = s.operator
      · simp [step, set_tier, hc] at h
      · simp [step, set_tier, hc]
  | getTier id =>
      cases htr : lookupTier s id <;> simp [step, get_tier, dropVal, htr]
  | listTiers => simp [step, list_tiers, dropVal]
  | addNode caller node =>
      by_cases hc : caller = s.operator
      · by_cases hcn : node ∈ s.nodes
        · simp [step, add_node, hc, hcn] at h
        · simp [step, add_node, hc, hcn] at h
      · simp [step, add_node, hc]
  | removeNode caller node =>
      by_cases hc : caller = s.operator
      · simp [step, remove_node, hc] at h
      · simp [step, remove_node, hc]
  | report now inspector app node day sb tb =>
      by_cases h1 : node ∈ s.nodes
      · by_cases h2 : inspector ∈ s.inspectors
        · by_cases h3 : withinRetention now day = false
          · simp [step, report, h1, h2, h3]
          · have h3t : withinRetention now day = true := by
              simpa using h3
            simp [step, report, h1, h2, h3t] at h
        · simp [step, report, h1, h2]
      · simp [step, report, h1]
  | rollupByApp app d1 d2 => simp [step, rollup_by_app, dropVal]
  | rollupByNode node d1 d2 => simp [step, rollup_by_node, dropVal]
  | evictExpired now => simp [step, evict_expired] at h
  | credit node amount => simp [step, credit] at h
  | withdraw caller amount =>
      by_cases hc : caller = s.operator
      · by_cases ha : amount ≤ s.revenuePool
        · simp [step, withdraw, dropVal, hc, ha, Except.map] at h
        · simp [step, withdraw, dropVal, hc, ha]
      · simp [step, withdraw, dropVal, hc]
  | markOnline now node =>
      by_cases h1 : node ∈ s.nodes
      · by_cases h2 : currentAvailState (availOf s node) = true
        · simp [step, mark_online, h1, h2] at h
        · simp [step, mark_online, h1, h2] at h
      · simp [step, mark_online, h1]
  | markOffline now node =>
      by_cases h1 : node ∈ s.nodes
      · by_cases h2 : currentAvailState (availOf s node) = false
        · simp [step, mark_offline, h1, h2] at h
        · simp [step, mark_offline, h1, h2] at h
      · simp [step, mark_offline, h1]
  | uptime node d1 d2 =>
      by_cases h1 : node ∈ s.nodes
      · simp [step, uptimeFraction, dropVal, h1]
      · simp [step, uptimeFraction, dropVal, h1]

/-- C4 witness at a concrete input: `cancel` on an App with no subscription
returns an error kind, and the theorem yields that the state is unchanged. -/
theorem C4_errors_leave_state_unchanged_witness :
    (DdcLedger.step (DdcLedger.Op.cancel 7)
      (DdcLedger.initState 99 [(1, ⟨30, 5⟩)] [])).2
      = DdcLedger.initState 99 [(1, ⟨30, 5⟩)] [] :=
  C4_errors_leave_state_unchanged (DdcLedger.Op.cancel 7)
    (DdcLedger.initState 99 [(1, ⟨30, 5⟩)] [])
    DdcLedger.Err.noSubscription rfl

/-- C5 counterexample: the claim "any tick occurring mid-period charges at
the tier price in force at the start of that period, never at a price
changed mid-period" fails on the modelled core.  App 7 deposits 100 at
time 0 (tier 1, fee 30), changes tier to 2 (fee 50) and then to 3 (fee 70)
before the first renewal boundary, and a tick at time 40 (mid second
period) charges 70 — the fee recorded by the mid-period change — leaving
balance 30; a charge at the fee in force at the start of the charged
period (30) would leave 70, and a charge at the fee in force at the start
of the period in progress at the tick (50) would leave 50. -/
theorem C5_counterexample_mid_period_price_change :
    DdcLedger.balanceOf (DdcLedger.run
      [DdcLedger.Op.deposit 0 7 100, DdcLedger.Op.changeTier 7 2,
       DdcLedger.Op.changeTier 7 3, DdcLedger.Op.tick 40 7]
      (DdcLedger.initState 99
        [(1, ⟨30, 5⟩), (2, ⟨50, 5⟩), (3, ⟨70, 5⟩)] [])) 7 = 30
    ∧ (100 : Nat) - 30 ≠ 30 ∧ (100 : Nat) - 50 ≠ 30 := by
  refine ⟨by decide, by decide, by decide⟩

/-- C5 (amended): `change_tier` immediately records the new tier pointer
and leaves the balance unchanged; a tick before a whole period has elapsed
since last-consumption charges nothing; and charges for elapsed whole
periods use the tier pointer current at the time of the tick (possibly
recorded mid-period).  The concrete example holds as stated: deposit 100
at fee 30, one tick at the boundary leaves 70; after `change_tier` to a
fee-50 tier, a tick before the next boundary charges nothing and the
first tick after it charges 50, leaving 20. -/
theorem C5_change_tier_records_pointer_charges_at_boundary :
    (∀ (s : DdcLedger.State) (app newTier : Nat)
      (sub : DdcLedger.Subscription) (t : DdcLedger.Tier),
      DdcLedger.lookupSub s app = some sub →
      DdcLedger.lookupTier s newTier = some t → t.limit ≠ 0 →
      ((DdcLedger.change_tier app newTier s).1 = Except.ok ()
        ∧ (DdcLedger.lookupSub (DdcLedger.change_tier app newTier s).2
            app).map DdcLedger.Subscription.tierId = some newTier
        ∧ DdcLedger.balanceOf (DdcLedger.change_tier app newTier s).2 app
            = DdcLedger.balanceOf s app))
    ∧ (∀ (now app : Nat) (s : DdcLedger.State)
        (sub : DdcLedger.Subscription),
        DdcLedger.lookupSub s app = some sub →
        now - sub.lastConsumption < DdcLedger.periodDays →
        DdcLedger.balanceOf (DdcLedger.tick now app s).2 app
          = DdcLedger.balanceOf s app)
    ∧ (DdcLedger.balanceOf (DdcLedger.run
        [DdcLedger.Op.deposit 0 7 100, DdcLedger.Op.tick 31 7]
        (DdcLedger.initState 99 [(1, ⟨30, 5⟩), (2, ⟨50, 5⟩)] [])) 7 = 70
      ∧ DdcLedger.balanceOf (DdcLedger.run
          [DdcLedger.Op.deposit 0 7 100, DdcLedger.Op.tick 31 7,
           DdcLedger.Op.changeTier 7 2, DdcLedger.Op.tick 40 7]
          (DdcLedger.initState 99 [(1, ⟨30, 5⟩), (2, ⟨50, 5⟩)] [])) 7 = 70
      ∧ DdcLedger.balanceOf (DdcLedger.run
          [DdcLedger.Op.deposit 0 7 100, DdcLedger.Op.tick 31 7,
           DdcLedger.Op.changeTier 7 2, DdcLedger.Op.tick 40 7,
           DdcLedger.Op.tick 62 7]
          (DdcLedger.initState 99 [(1, ⟨30, 5⟩), (2, ⟨50, 5⟩)] [])) 7
          = 20) := by
  open DdcLedger in
  refine ⟨?_, ?_, by decide, by decide, by decide⟩
  · intro s app newTier sub t hs htr hl
    have hl' : ¬t.limit = 0 := hl
    refine ⟨by simp [change_tier, hs, htr, hl'], ?_, ?_⟩
    · simp [change_tier, hs, htr, hl', lookupSub_setSub_self]
    · simp [change_tier, hs, htr, hl', balanceOf, lookupSub_setSub_self]
  · intro now app s sub hs hmid
    by_cases hsusp : sub.suspended = true
    · simp [tick, hs, hsusp]
    · have hns : sub.suspended = false := by simpa using hsusp
      cases htr : lookupTier s sub.tierId with
      | none => simp [tick, hs, hns, htr]
      | some t =>
          have hlk := tick_post_lookup now app s sub t hs hns htr
          rw [Nat.div_eq_of_lt hmid] at hlk
          simp [balanceOf, hlk, hs]

/-- C5 (amended) witness at concrete inputs: `change_tier` for App 7 from
tier 1 to tier 2 immediately stores pointer 2 without touching the
balance, and a tick 10 days after last consumption charges nothing. -/
theorem C5_change_tier_records_pointer_charges_at_boundary_witness :
    ((DdcLedger.lookupSub (DdcLedger.change_tier 7 2
        (DdcLedger.run [DdcLedger.Op.deposit 0 7 100]
          (DdcLedger.initState 99 [(1, ⟨30, 5⟩), (2, ⟨50, 5⟩)] []))).2
        7).map DdcLedger.Subscription.tierId = some 2)
    ∧ DdcLedger.balanceOf (DdcLedger.tick 10 7
        (DdcLedger.run [DdcLedger.Op.deposit 0 7 100]
          (DdcLedger.initState 99 [(1, ⟨30, 5⟩), (2, ⟨50, 5⟩)] []))).2 7
        = DdcLedger.balanceOf
            (DdcLedger.run [DdcLedger.Op.deposit 0 7 100]
              (DdcLedger.initState 99 [(1, ⟨30, 5⟩), (2, ⟨50, 5⟩)] [])) 7 := by
  constructor
  · exact (C5_change_tier_records_pointer_charges_at_boundary.1
      (DdcLedger.run [DdcLedger.Op.deposit 0 7 100]
        (DdcLedger.initState 99 [(1, ⟨30, 5⟩), (2, ⟨50, 5⟩)] []))
      7 2
      { tierId := 1, balance := 100, createdAt := 0, lastConsumption := 0,
        suspended := false, totalCharged := 0, totalDeposited := 100 }
      ⟨50, 5⟩ (by decide) (by decide) (by decide)).2.1
  · exact C5_change_tier_records_pointer_charges_at_boundary.2.1 10 7
      (DdcLedger.run [DdcLedger.Op.deposit 0 7 100]
        (DdcLedger.initState 99 [(1, ⟨30, 5⟩), (2, ⟨50, 5⟩)] []))
      { tierId := 1, balance := 100, createdAt := 0, lastConsumption := 0,
        suspended := false, totalCharged := 0, totalDeposited := 100 }
      (by decide) (by decide)

/-- C7: `cancel(app)` on an App with a Subscription returns exactly the
unused balance (the balance minus the amount already consumed for the
current period, which is zero under in-arrears charging) and removes the
Subscription, after which `status` and `cancel` both fail with
`NoSubscription` (and the failing repeat `cancel` changes nothing);
`cancel` on an App with no Subscription fails with `NoSubscription` and
changes nothing. -/
theorem C7_cancel_refunds_unused_balance :
    (∀ (s : DdcLedger.State) (app : Nat) (sub : DdcLedger.Subscription),
      DdcLedger.lookupSub s app = some sub →
      ((DdcLedger.cancel app s).1
          = Except.ok (sub.balance - DdcLedger.consumedCurrentPeriod sub)
        ∧ DdcLedger.lookupSub (DdcLedger.cancel app s).2 app = none
        ∧ (DdcLedger.status app (DdcLedger.cancel app s).2).1
            = Except.error DdcLedger.Err.noSubscription
        ∧ (DdcLedger.cancel app (DdcLedger.cancel app s).2).1
            = Except.error DdcLedger.Err.noSubscription
        ∧ (DdcLedger.cancel app (DdcLedger.cancel app s).2).2
            = (DdcLedger.cancel app s).2))
    ∧ (∀ (s : DdcLedger.State) (app : Nat),
        DdcLedger.lookupSub s app = none →
        (DdcLedger.cancel app s).1
            = Except.error DdcLedger.Err.noSubscription
        ∧ (DdcLedger.cancel app s).2 = s) := by
  open DdcLedger in
  constructor
  · intro s app sub hs
    have h1 : (cancel app s).2 = removeSub s app := by
      simp [cancel, hs]
    refine ⟨by simp [cancel, hs], ?_, ?_, ?_, ?_⟩
    · rw [h1]; exact lookupSub_removeSub_self s app
    · rw [h1]; simp [status, lookupSub_removeSub_self]
    · rw [h1]; simp [cancel, lookupSub_removeSub_self]
    · rw [h1]; simp [cancel, lookupSub_removeSub_self]
  · intro s app hs
    exact ⟨by simp [cancel, hs], by simp [cancel, hs]⟩

/-- C7 witness at concrete inputs: after deposit 100 and one tick
consuming 30, `cancel` refunds exactly 70, the Subscription is gone, and a
subsequent `status` fails with `NoSubscription`; `cancel` on the fresh
ledger (no subscription) fails with `NoSubscription` leaving the state
unchanged. -/
theorem C7_cancel_refunds_unused_balance_witness :
    ((DdcLedger.cancel 7
        (DdcLedger.run [DdcLedger.Op.deposit 0 7 100, DdcLedger.Op.tick 31 7]
          (DdcLedger.initState 99 [(1, ⟨30, 5⟩)] []))).1 = Except.ok 70
      ∧ (DdcLedger.status 7 (DdcLedger.cancel 7
          (DdcLedger.run [DdcLedger.Op.deposit 0 7 100, DdcLedger.Op.tick 31 7]
            (DdcLedger.initState 99 [(1, ⟨30, 5⟩)] []))).2).1
          = Except.error DdcLedger.Err.noSubscription)
    ∧ (DdcLedger.cancel 7 (DdcLedger.initState 99 [(1, ⟨30, 5⟩)] [])).1
        = Except.error DdcLedger.Err.noSubscription := by
  constructor
  · have h := C7_cancel_refunds_unused_balance.1
      (DdcLedger.run [DdcLedger.Op.deposit 0 7 100, DdcLedger.Op.tick 31 7]
        (DdcLedger.initState 99 [(1, ⟨30, 5⟩)] []))
      7
      { tierId := 1, balance := 70, createdAt := 0, lastConsumption := 31,
        suspended := false, totalCharged := 30, totalDeposited := 100 }
      (by decide)
    exact ⟨h.1, h.2.2.1⟩
  · exact (C7_cancel_refunds_unused_balance.2
      (DdcLedger.initState 99 [(1, ⟨30, 5⟩)] []) 7 (by decide)).1

/-- C3: the merged value for a (app, node, day) key is the median of the
distinct Inspectors' latest reports for that key: a single report merges to
that report verbatim (both counter fields); two reports merge to the
arithmetic mean of the two values; three reports with sorted values merge
to the middle value; and a re-report by the same Inspector replaces its
earlier report, so the merge reflects only the latest report.  Stated over
the fixture ledger `mBase` (node 10 registered, Inspectors 1, 2, 3), key
(app 20, node 10, day 5), with universally quantified counter values. -/
theorem C3_merge_is_median_of_latest_reports :
    ∀ (v1 v2 v3 w u : Nat), v1 ≤ v2 → v2 ≤ v3 →
      (DdcLedger.lookupMerged
          ((DdcLedger.report 5 1 20 10 5 v1 w DdcLedger.mBase).2) 20 10 5
        = some { app := 20, node := 10, day := 5, storedBytes := v1,
                 transferredBytes := w })
      ∧ ((DdcLedger.lookupMerged
          ((DdcLedger.report 5 2 20 10 5 v3 v3
            ((DdcLedger.report 5 1 20 10 5 v1 v1
              DdcLedger.mBase).2)).2) 20 10 5).map
          DdcLedger.MergedMetric.storedBytes = some ((v1 + v3) / 2))
      ∧ ((DdcLedger.lookupMerged
          ((DdcLedger.report 5 3 20 10 5 v3 v3
            ((DdcLedger.report 5 2 20 10 5 v2 v2
              ((DdcLedger.report 5 1 20 10 5 v1 v1
                DdcLedger.mBase).2)).2)).2) 20 10 5).map
          DdcLedger.MergedMetric.storedBytes = some v2)
      ∧ (DdcLedger.lookupMerged
          ((DdcLedger.report 5 1 20 10 5 v1 w
            ((DdcLedger.report 5 1 20 10 5 u u
              DdcLedger.mBase).2)).2) 20 10 5
          = some { app := 20, node := 10, day := 5, storedBytes := v1,
                   transferredBytes := w }) := by
  open DdcLedger in
  intro v1 v2 v3 w u h1 h2
  refine ⟨?_, ?_, ?_, ?_⟩
  · simp [report, mBase, initState, lookupMerged, mergeOf, keyReports,
      sameKey, withinRetention, periodDays, medianNat_single]
  · simp [report, mBase, initState, lookupMerged, mergeOf, keyReports,
      sameKey, withinRetention, periodDays, medianNat_pair]
  · simp [report, mBase, initState, lookupMerged, mergeOf, keyReports,
      sameKey, withinRetention, periodDays,
      medianNat_sorted3 v1 v2 v3 h1 h2]
  · simp [report, mBase, initState, lookupMerged, mergeOf, keyReports,
      sameKey, withinRetention, periodDays, medianNat_single]

/-- C3 witness at concrete inputs: Inspectors 1, 2, 3 reporting 10, 20, 30
merge to 20; Inspectors 1, 2 reporting 10, 30 merge to 20 (the mean); a
single report (10, 7) merges verbatim; a re-report replaces the earlier
value 50 with 10. -/
theorem C3_merge_is_median_of_latest_reports_witness :
    (DdcLedger.lookupMerged
        ((DdcLedger.report 5 1 20 10 5 10 7 DdcLedger.mBase).2) 20 10 5
      = some { app := 20, node := 10, day := 5, storedBytes := 10,
               transferredBytes := 7 })
    ∧ ((DdcLedger.lookupMerged
        ((DdcLedger.report 5 2 20 10 5 30 30
          ((DdcLedger.report 5 1 20 10 5 10 10
            DdcLedger.mBase).2)).2) 20 10 5).map
        DdcLedger.MergedMetric.storedBytes = some 20)
    ∧ ((DdcLedger.lookupMerged
        ((DdcLedger.report 5 3 20 10 5 30 30
          ((DdcLedger.report 5 2 20 10 5 20 20
            ((DdcLedger.report 5 1 20 10 5 10 10
              DdcLedger.mBase).2)).2)).2) 20 10 5).map
        DdcLedger.MergedMetric.storedBytes = some 20)
    ∧ (DdcLedger.lookupMerged
        ((DdcLedger.report 5 1 20 10 5 10 7
          ((DdcLedger.report 5 1 20 10 5 50 50
            DdcLedger.mBase).2)).2) 20 10 5
        = some { app := 20, node := 10, day := 5, storedBytes := 10,
                 transferredBytes := 7 }) :=
  C3_merge_is_median_of_latest_reports 10 20 30 7 50
    (by decide) (by decide)

/-- C6: a `report` for a registered node by a recognized Inspector whose
day is at least 31 days before the injected current time fails with
`RetentionExpired` and leaves the state unchanged (the raw report is
discarded); a report for a future day is likewise rejected with the state
unchanged; and after `evict_expired`, `rollup_by_app` over a window lying
entirely in the evicted range returns zero. -/
theorem C6_retention_window_enforced :
    (∀ (s : DdcLedger.State) (now inspector app node day sb tb : Nat),
      node ∈ s.nodes → inspector ∈ s.inspectors →
      day + DdcLedger.periodDays ≤ now →
      (DdcLedger.report now inspector app node day sb tb s).1
          = Except.error DdcLedger.Err.retentionExpired
      ∧ (DdcLedger.report now inspector app node day sb tb s).2 = s)
    ∧ (∀ (s : DdcLedger.State) (now inspector app node day sb tb : Nat),
        node ∈ s.nodes → inspector ∈ s.inspectors → now < day →
        (DdcLedger.report now inspector app node day sb tb s).1
            = Except.error DdcLedger.Err.retentionExpired
        ∧ (DdcLedger.report now inspector app node day sb tb s).2 = s)
    ∧ (∀ (s : DdcLedger.State) (now app d1 d2 : Nat),
        d2 + DdcLedger.periodDays ≤ now →
        (DdcLedger.rollup_by_app app d1 d2
          (DdcLedger.evict_expired now s).2).1 = Except.ok (0, 0)) := by
  open DdcLedger in
  refine ⟨?_, ?_, fun s now app d1 d2 h => rollup_by_app_evicted s now app d1 d2 h⟩
  · intro s now inspector app node day sb tb hn hi hday
    have hw : withinRetention now day = false := by
      simp [withinRetention]
      omega
    constructor <;> simp [report, hn, hi, hw]
  · intro s now inspector app node day sb tb hn hi hday
    have hw : withinRetention now day = false := by
      simp [withinRetention]
      omega
    constructor <;> simp [report, hn, hi, hw]

/-- C6 witness at concrete inputs: on the fixture ledger, a report at
current time 40 for day 8 (32 days earlier) fails with `RetentionExpired`
and leaves the state unchanged; a report at current time 40 for the future
day 50 fails the same way; and after a report for day 5 followed by
`evict_expired` at time 40, the rollup over days 0-5 returns (0, 0). -/
theorem C6_retention_window_enforced_witness :
    ((DdcLedger.report 40 1 20 10 8 10 10 DdcLedger.mBase).1
        = Except.error DdcLedger.Err.retentionExpired
      ∧ (DdcLedger.report 40 1 20 10 8 10 10 DdcLedger.mBase).2
        = DdcLedger.mBase)
    ∧ ((DdcLedger.report 40 1 20 10 50 10 10 DdcLedger.mBase).1
        = Except.error DdcLedger.Err.retentionExpired)
    ∧ (DdcLedger.rollup_by_app 20 0 5
        (DdcLedger.evict_expired 40
          ((DdcLedger.report 6 1 20 10 5 10 10 DdcLedger.mBase).2)).2).1
        = Except.ok (0, 0) := by
  refine ⟨?_, ?_, ?_⟩
  · exact C6_retention_window_enforced.1 DdcLedger.mBase 40 1 20 10 8 10 10
      (by decide) (by decide) (by decide)
  · exact (C6_retention_window_enforced.2.1 DdcLedger.mBase 40 1 20 10 50
      10 10 (by decide) (by decide) (by decide)).1
  · exact C6_retention_window_enforced.2.2
      ((DdcLedger.report 6 1 20 10 5 10 10 DdcLedger.mBase).2) 40 20 0 5
      (by decide)

/-- C8: in the example client, `change_tier_limit(tid, new_limit)` submits
the `change_tier_fee` contract message with `new_limit` in the fee-argument
position — for every `tid` and `new_limit` it submits exactly the same
message as `change_tier_fee(tid, new_limit)` and never a limit-changing
message. -/
theorem C8_change_tier_limit_submits_fee_message (tid new_limit : Nat) :
    (Cere02Client.change_tier_limit tid new_limit).method = "change_tier_fee"
    ∧ (Cere02Client.change_tier_limit tid new_limit).method ≠ "change_tier_limit"
    ∧ (Cere02Client.change_tier_limit tid new_limit).arg2 = new_limit
    ∧ Cere02Client.change_tier_limit tid new_limit
        = Cere02Client.change_tier_fee tid new_limit := by
  refine ⟨rfl, ?_, rfl, rfl⟩
  show ("change_tier_fee" : String) ≠ "change_tier_limit"
  decide

/-- C8 witness at a concrete input: `change_tier_limit(3, 3000)` (the call
made at line 178) submits the `change_tier_fee` message with fee argument
3000. -/
theorem C8_change_tier_limit_submits_fee_message_witness :
    (Cere02Client.change_tier_limit 3 3000).method = "change_tier_fee"
    ∧ (Cere02Client.change_tier_limit 3 3000).method ≠ "change_tier_limit"
    ∧ (Cere02Client.change_tier_limit 3 3000).arg2 = 3000
    ∧ Cere02Client.change_tier_limit 3 3000
        = Cere02Client.change_tier_fee 3 3000 :=
  C8_change_tier_limit_submits_fee_message 3 3000

/-- C9: `alicePair` is not declared anywhere in the module scope of the
example client, and every helper that references it resolves `alicePair`
before its query or transaction is sent, so each of the eleven listed
helpers raises a `ReferenceError` on `alicePair` before anything is sent. -/
theorem C9_alicePair_reference_error :
    Cere02Client.topLevelDecls.contains ("alicePair") = false
    ∧ (Cere02Client.alicePairClients.all (fun f =>
        Cere02Client.evalRefs Cere02Client.topLevelDecls
          (Cere02Client.preSendRefs f)
          == Cere02Client.EvalOutcome.refError ("alicePair"))) = true := by
  constructor
  · decide
  · decide

/-- C10: in the module-level run of the example client, the
`ContractPromise` constructor receives `api = undefined` (the constructor
runs synchronously before the awaited `ApiPromise.create()` in `InitApi` can
resolve), even though `api` does get initialized afterwards. -/
theorem C10_contract_constructed_with_undefined_api :
    Cere02Client.moduleRun.contractApiArg = some none
    ∧ Cere02Client.moduleRun.api = some Cere02Client.apiHandle := by
  constructor
  · rfl
  · rfl
